import Mathlib

/-!
Verification development for the bidichecker sources: a shallow embedding of
the character classifier (src/trunk/src/utils.js), the undeclared-text,
spillover and undeclared-field detectors, the DOM walker's declared-direction
latch, the chunk position-to-node index (src/trunk/src/dirchunk.js), the
error class and its serialization, the filter factory
(src/src/filterfactory.js) and the scanner/error-collector control flow.

Strings are modelled as `List Char` (JavaScript UTF-16 code units; all
reasoning stays within the basic multilingual plane, where code units and
scalar values coincide).  DOM-related state (highlightable areas, live node
references) is modelled only to the extent the checked properties need:
nodes appear as numeric identities, elements as records of the attributes
the code reads.
-/

namespace Bidichecker

/-! ### Character classes (bidichecker.utils, src/trunk/src/utils.js) -/

/-- Strong-LTR character class, from `bidichecker.utils.ltrChars_`:
`A-Za-zÀ-ÖØ-öø-ʸ̀-֐ࠀ-῿‎Ⰰ-﬜︀-﹯﻽-￿`. -/
def isLtrChar (c : Char) : Bool :=
  let n := c.toNat
  (0x41 ≤ n && n ≤ 0x5A) || (0x61 ≤ n && n ≤ 0x7A) ||
  (0xC0 ≤ n && n ≤ 0xD6) || (0xD8 ≤ n && n ≤ 0xF6) ||
  (0xF8 ≤ n && n ≤ 0x2B8) || (0x300 ≤ n && n ≤ 0x590) ||
  (0x800 ≤ n && n ≤ 0x1FFF) || n == 0x200E ||
  (0x2C00 ≤ n && n ≤ 0xFB1C) || (0xFE00 ≤ n && n ≤ 0xFE6F) ||
  (0xFEFD ≤ n && n ≤ 0xFFFF)

/-- Strong-RTL character class, from `bidichecker.utils.rtlChars_`:
`֑-߿‏יִ-﷿ﹰ-ﻼ`. -/
def isRtlChar (c : Char) : Bool :=
  let n := c.toNat
  (0x591 ≤ n && n ≤ 0x7FF) || n == 0x200F ||
  (0xFB1D ≤ n && n ≤ 0xFDFF) || (0xFE70 ≤ n && n ≤ 0xFEFC)

/-- Neutral characters excluding whitespace, from
`bidichecker.utils.nonWhiteNeutralChars_`. -/
def isNonWhiteNeutralChar (c : Char) : Bool :=
  let n := c.toNat
  (n ≤ 0x8) || (0xE ≤ n && n ≤ 0x1F) || (0x21 ≤ n && n ≤ 0x40) ||
  (0x5B ≤ n && n ≤ 0x60) || (0x7B ≤ n && n ≤ 0x84) ||
  (0x86 ≤ n && n ≤ 0x9F) || (0xA1 ≤ n && n ≤ 0xBF) ||
  n == 0xD7 || n == 0xF7 || (0x2B9 ≤ n && n ≤ 0x2FF) ||
  (0x200B ≤ n && n ≤ 0x200D) || (0x2010 ≤ n && n ≤ 0x2027) ||
  (0x2030 ≤ n && n ≤ 0x205E) || (0x2060 ≤ n && n ≤ 0x2BFF)

/-- Neutral characters including whitespace, from
`bidichecker.utils.neutralChars_` (the non-white class plus
`\u0009-\u000d \u0085  ᠎ -     　`). -/
def isNeutralChar (c : Char) : Bool :=
  isNonWhiteNeutralChar c ||
  (let n := c.toNat
   (0x9 ≤ n && n ≤ 0xD) || n == 0x20 || n == 0x85 || n == 0xA0 ||
   n == 0x1680 || n == 0x180E || (0x2000 ≤ n && n ≤ 0x200A) ||
   n == 0x2028 || n == 0x2029 || n == 0x202F || n == 0x205F || n == 0x3000)

/-- The Unicode bidi control characters `‪-‮`, excluded from the
run-matching character classes in `rtlSubstringReg_` and `ltrSubstringReg_`. -/
def isBidiControlChar (c : Char) : Bool :=
  0x202A ≤ c.toNat && c.toNat ≤ 0x202E

/-- The decimal digits, matched by `\d` in
`bidichecker.utils.initialNumberSubstringReg_`. -/
def isDigitChar (c : Char) : Bool :=
  0x30 ≤ c.toNat && c.toNat ≤ 0x39

/-- The Unicode RLO (right-to-left override) character `‮`. -/
def rloChar : Char := Char.ofNat 0x202E

/-- The Unicode PDF (pop directional formatting) character `‬`. -/
def pdfChar : Char := Char.ofNat 0x202C

/-- `bidichecker.utils.Substring`: a substring together with its 0-based
index in the scanned string. -/
structure Substr where
  text : List Char
  index : Nat
deriving DecidableEq, Repr

/-! ### Run finders (`rtlSubstringReg_`, `ltrSubstringReg_` with `exec`)

The run regexes have the shape `[S](?:[^X]*[S])?` scanned globally: a match
starts at a strong character, greedily extends over characters outside the
excluded class `X`, and backtracks so that the match ends at the last strong
character inside that extent (a lone strong character matches via the empty
optional group).  A strong character is never itself in `X`, so the
backtracked end always lies inside the maximal non-excluded extent. -/

/-- The portion of a run match after its first character: the maximal
non-excluded extent of `rest`, cut back to end at its last strong character
(empty when the extent holds no strong character). -/
def runBody (strong excl : Char → Bool) (rest : List Char) : List Char :=
  ((rest.takeWhile fun d => !excl d).reverse.dropWhile fun d => !strong d).reverse

/-- Global scan of the run regex `[S](?:[^X]*[S])?` over the input,
producing each match with its index, continuing after each match
(`RegExp.prototype.exec` with the `g` flag). -/
def findRunsAux (strong excl : Char → Bool) : List Char → Nat → List Substr
  | [], _ => []
  | c :: rest, i =>
    if strong c then
      let body := runBody strong excl rest
      ⟨c :: body, i⟩ ::
        findRunsAux strong excl (rest.drop body.length) (i + 1 + body.length)
    else
      findRunsAux strong excl rest (i + 1)
termination_by l => l.length
decreasing_by
  · simp only [List.length_cons, List.length_drop]; omega
  · simp only [List.length_cons]; omega

/-- `bidichecker.utils.findRtlSubstrings`: RTL runs
(`rtlSubstringReg_` excludes LTR characters and `‪-‮`). -/
def findRtlSubstrings (s : List Char) : List Substr :=
  findRunsAux isRtlChar (fun c => isLtrChar c || isBidiControlChar c) s 0

/-- The raw matches of `ltrSubstringReg_`, before the fake-RTL filtering done
by `findLtrSubstrings`. -/
def findLtrRunsRaw (s : List Char) : List Substr :=
  findRunsAux isLtrChar (fun c => isRtlChar c || isBidiControlChar c) s 0

/-- Is the raw LTR match at `m` a fake-RTL string, i.e. immediately preceded
by RLO and followed by PDF?  (`str.charAt(match.index - 1)` yields the empty
string at index 0, so a match at the start is never skipped.) -/
def isFakeRtlContext (s : List Char) (m : Substr) : Bool :=
  (if m.index = 0 then false else s[m.index - 1]? == some rloChar) &&
  (s[m.index + m.text.length]? == some pdfChar)

/-- `bidichecker.utils.findLtrSubstrings`: LTR runs, skipping matches
sandwiched between RLO and PDF. -/
def findLtrSubstrings (s : List Char) : List Substr :=
  (findLtrRunsRaw s).filter fun m => !isFakeRtlContext s m

/-! ### Fake-RTL finder (`rtlAndFakeRtlSubstringReg_` with `exec`)

The second alternative of the regex is `(?:‮[L](?:[^R]*[L])?‬[N]*)+`
(with `R` also excluding the bidi controls, `N` the neutral class):
a unit is an RLO, an LTR-run body, and a PDF; units repeat separated by
neutrals, and the final neutral run is captured by the match (and stripped
afterwards by `findRtlAndFakeRtlSubstrings`).  Since PDF, RTL characters and
bidi controls cannot occur inside the body's non-excluded extent, the
backtracking regex accepts a unit exactly when the maximal non-excluded
extent after the RLO is non-empty, starts and ends with an LTR character,
and is immediately followed by PDF. -/

/-- Characters allowed inside the body of a fake-RTL unit: the complement of
the class `[R‪-‮]` of `rtlAndFakeRtlSubstringReg_`. -/
def fakeBodyAllowed (d : Char) : Bool :=
  !(isRtlChar d || isBidiControlChar d)

/-- Matches the body-plus-PDF of one fake-RTL unit at the head of `l`
(the portion after the RLO), returning the consumed characters and the
remainder. -/
def fakeUnitBody (l : List Char) : Option (List Char × List Char) :=
  if (l.takeWhile fakeBodyAllowed).head?.any isLtrChar &&
      (l.takeWhile fakeBodyAllowed).getLast?.any isLtrChar then
    match l.dropWhile fakeBodyAllowed with
    | c :: rest =>
      if c = pdfChar then some (l.takeWhile fakeBodyAllowed ++ [c], rest)
      else none
    | [] => none
  else none

theorem fakeUnitBody_spec {l u rest : List Char}
    (h : fakeUnitBody l = some (u, rest)) :
    u ++ rest = l ∧ u ≠ [] := by
  unfold fakeUnitBody at h
  split at h
  · split at h
    next c rest1 heq =>
      split at h
      · simp only [Option.some.injEq, Prod.mk.injEq] at h
        obtain ⟨rfl, rfl⟩ := h
        refine ⟨?_, by simp⟩
        have hsplit := List.takeWhile_append_dropWhile
          (p := fakeBodyAllowed) (l := l)
        rw [heq] at hsplit
        simpa using hsplit
      · exact absurd h (by simp)
    next heq => exact absurd h (by simp)
  · exact absurd h (by simp)

/-- Matches one complete fake-RTL unit (`‮[L](?:[^R]*[L])?‬`) at
the head of `l`. -/
def fakeUnitAt : List Char → Option (List Char × List Char)
  | [] => none
  | c :: l =>
    if c = rloChar then (fakeUnitBody l).map fun p => (c :: p.1, p.2)
    else none

theorem fakeUnitAt_spec {l u rest : List Char}
    (h : fakeUnitAt l = some (u, rest)) :
    u ++ rest = l ∧ rest.length < l.length := by
  cases l with
  | nil => simp [fakeUnitAt] at h
  | cons c l =>
    simp only [fakeUnitAt] at h
    split at h
    · rw [Option.map_eq_some'] at h
      obtain ⟨⟨u1, rest1⟩, hb, heq⟩ := h
      obtain ⟨h1, h2⟩ := fakeUnitBody_spec hb
      simp only [Prod.mk.injEq] at heq
      obtain ⟨rfl, rfl⟩ := heq.symm
      constructor
      · simp [h1]
      · have hlen : u1.length + rest1.length = l.length := by
          rw [← h1]; simp
        have hpos : 0 < u1.length := List.length_pos.mpr h2
        simp only [List.length_cons]
        omega
    · simp at h

/-- The repetition `(?:unit[N]*)+`: one unit, its trailing neutrals, and as
many further units as will match, each with its trailing neutrals. -/
def fakeChain (l : List Char) : Option (List Char × List Char) :=
  match h : fakeUnitAt l with
  | none => none
  | some (u, rest) =>
    match fakeChain (rest.dropWhile isNeutralChar) with
    | some (more, rest3) => some (u ++ rest.takeWhile isNeutralChar ++ more, rest3)
    | none => some (u ++ rest.takeWhile isNeutralChar, rest.dropWhile isNeutralChar)
termination_by l.length
decreasing_by
  have h1 := (fakeUnitAt_spec h).2
  have h2 : (rest.dropWhile isNeutralChar).length ≤ rest.length :=
    (List.dropWhile_sublist (l := rest) isNeutralChar).length_le
  omega

theorem fakeChain_rest_lt {l m rest : List Char}
    (h : fakeChain l = some (m, rest)) : rest.length < l.length := by
  have key : ∀ (n : Nat) (l m rest : List Char), l.length ≤ n →
      fakeChain l = some (m, rest) → rest.length < l.length := by
    intro n
    induction n with
    | zero =>
      intro l m rest hlen h
      have : l = [] := by
        cases l with
        | nil => rfl
        | cons a t => simp at hlen
      subst this
      rw [fakeChain] at h
      simp [fakeUnitAt] at h
    | succ n ih =>
      intro l m rest hlen h
      rw [fakeChain] at h
      split at h
      · exact absurd h (by simp)
      next u rest1 hu =>
        have hlt := (fakeUnitAt_spec hu).2
        have hdw : (rest1.dropWhile isNeutralChar).length ≤ rest1.length :=
          (List.dropWhile_sublist (l := rest1) isNeutralChar).length_le
        split at h
        next more rest3 hrec =>
          simp only [Option.some.injEq, Prod.mk.injEq] at h
          obtain ⟨rfl, rfl⟩ := h
          have hres := ih _ _ _ (by omega) hrec
          omega
        next hrec =>
          simp only [Option.some.injEq, Prod.mk.injEq] at h
          obtain ⟨rfl, rfl⟩ := h
          omega
  exact key l.length l m rest (Nat.le_refl _) h

/-- The global scan of `rtlAndFakeRtlSubstringReg_`: at an RTL character the
first alternative matches a plain RTL run; otherwise the fake-RTL
alternative is tried (it can only start at an RLO). -/
def findRtlAndFakeAux : List Char → Nat → List Substr
  | [], _ => []
  | c :: rest, i =>
    if isRtlChar c then
      ⟨c :: runBody isRtlChar (fun d => isLtrChar d || isBidiControlChar d) rest, i⟩ ::
        findRtlAndFakeAux
          (rest.drop (runBody isRtlChar (fun d => isLtrChar d || isBidiControlChar d) rest).length)
          (i + 1 + (runBody isRtlChar (fun d => isLtrChar d || isBidiControlChar d) rest).length)
    else
      match h : fakeChain (c :: rest) with
      | some (m, rest2) => ⟨m, i⟩ :: findRtlAndFakeAux rest2 (i + m.length)
      | none => findRtlAndFakeAux rest (i + 1)
termination_by l => l.length
decreasing_by
  · simp only [List.length_cons, List.length_drop]; omega
  · exact fakeChain_rest_lt h
  · simp only [List.length_cons]; omega

/-- Removal of the neutral suffix of a match, per
`bidichecker.utils.finalNeutralSubstringReg_` (`[N]*$`, which always
matches, possibly emptily). -/
def stripFinalNeutrals (t : List Char) : List Char :=
  (t.reverse.dropWhile isNeutralChar).reverse

/-- `bidichecker.utils.findRtlAndFakeRtlSubstrings`: RTL and fake-RTL runs,
with the neutral suffix trimmed from each reported match. -/
def findRtlAndFakeRtlSubstrings (s : List Char) : List Substr :=
  (findRtlAndFakeAux s 0).map fun m => ⟨stripFinalNeutrals m.text, m.index⟩

/-! ### Neutral-adjacency and other string helpers (bidichecker.utils) -/

/-- `bidichecker.utils.findVisibleNeutralTextAtIndex`: the match of
`^[N]*[V]` (`V` the non-white neutral class) against `str.substr(index)`:
the neutral prefix cut at its last visible character, or no match. -/
def findVisibleNeutralTextAtIndex (s : List Char) (index : Nat) : Option Substr :=
  let pre := (s.drop index).takeWhile isNeutralChar
  let m := (pre.reverse.dropWhile fun c => !isNonWhiteNeutralChar c).reverse
  if m = [] then none else some ⟨m, index⟩

/-- `bidichecker.utils.findVisibleNeutralTextBeforeIndex`: the match of
`[V][N]*$` against `str.substr(0, index)`: the neutral suffix starting at
its first visible character, or no match. -/
def findVisibleNeutralTextBeforeIndex (s : List Char) (index : Nat) : Option Substr :=
  let suf := ((s.take index).reverse.takeWhile isNeutralChar).reverse
  let m := suf.dropWhile fun c => !isNonWhiteNeutralChar c
  if m = [] then none else some ⟨m, index - m.length⟩

/-- `bidichecker.utils.findNumberAtStart`: the match of `^[N]*\d`:
the neutral prefix cut at its last digit, or no match. -/
def findNumberAtStart (s : List Char) : Option Substr :=
  let pre := s.takeWhile isNeutralChar
  let m := (pre.reverse.dropWhile fun c => !isDigitChar c).reverse
  if m = [] then none else some ⟨m, 0⟩

/-- `bidichecker.utils.hasOnlyLrmChars`: `^[N‎]+$`. -/
def hasOnlyLrmChars (s : List Char) : Bool :=
  !s.isEmpty && s.all fun c => isNeutralChar c || c == Char.ofNat 0x200E

/-- `bidichecker.utils.hasOnlyRlmChars`: `^[N‏]+$`. -/
def hasOnlyRlmChars (s : List Char) : Bool :=
  !s.isEmpty && s.all fun c => isNeutralChar c || c == Char.ofNat 0x200F

/-- `bidichecker.utils.hasDirectionalCharacter`. -/
def hasDirectionalCharacter (s : List Char) : Bool :=
  s.any fun c => isLtrChar c || isRtlChar c

/-- `bidichecker.utils.truncateString`. -/
def truncateString (s : List Char) (maxLength : Nat) : List Char :=
  if maxLength < s.length then s.take maxLength ++ [Char.ofNat 0x2026] else s

/-! ### Errors (bidichecker.Error)

The error class carries a session-unique id and a highlightable DOM area
held in a side table; detector-level properties below concern only the data
fields, so detector-produced errors are modelled without the id counter and
the highlightable-area table (the serialization model further below carries
the id explicitly). -/

/-- The data fields of `bidichecker.Error` that the detectors and filters
read and write. -/
structure BError where
  type : String
  severity : Nat
  atText : Option (List Char) := none
  precededByText : Option (List Char) := none
  followedByText : Option (List Char) := none
deriving DecidableEq, Repr

/-! ### DirChunk and its position-to-node index (src/trunk/src/dirchunk.js)

DOM text nodes are modelled by numeric identities. -/

/-- `bidichecker.CharPositionNode_`. -/
structure CharPositionNode where
  charPos : Nat
  node : Nat
deriving DecidableEq, Repr

/-- `bidichecker.CharPositionNodeFinder_`. -/
structure CharPositionNodeFinder where
  nodePositions : List CharPositionNode
  lastNode : Nat
deriving DecidableEq, Repr

/-- The `CharPositionNodeFinder_` constructor. -/
def finderNew (firstNode : Nat) : CharPositionNodeFinder :=
  { nodePositions := [⟨0, firstNode⟩], lastNode := firstNode }

/-- `CharPositionNodeFinder_.prototype.append`: a new entry is pushed only
when the node differs from the last one recorded. -/
def finderAppend (f : CharPositionNodeFinder) (charPos node : Nat) :
    CharPositionNodeFinder :=
  if f.lastNode ≠ node then
    { nodePositions := f.nodePositions ++ [⟨charPos, node⟩], lastNode := node }
  else f

/-- Modelled from the spec: `goog.array.binarySearch` is an external
Closure-library function; `findNodeIndexAtPosition_` documents its contract:
if the target value occurs, its (lowest) array index is returned; otherwise
`-i - 1` where `i` is the index at which it would be inserted to keep the
array sorted. -/
def binarySearch (offsets : List Nat) (target : Nat) : Int :=
  match offsets.findIdx? fun o => o == target with
  | some j => (j : Int)
  | none => -(((offsets.takeWhile fun o => o < target).length : Int)) - 1

/-- `CharPositionNodeFinder_.prototype.findNodeIndexAtPosition_`. -/
def findNodeIndexAtPosition (f : CharPositionNodeFinder) (charPos : Nat) : Int :=
  let index := binarySearch (f.nodePositions.map (·.charPos)) charPos
  if 0 ≤ index then index else -index - 2

/-- `CharPositionNodeFinder_.prototype.findNodeAtPosition`. -/
def findNodeAtPosition (f : CharPositionNodeFinder) (charPos : Nat) : Nat :=
  ((f.nodePositions[(findNodeIndexAtPosition f charPos).toNat]?).getD ⟨0, 0⟩).node

/-- `bidichecker.HighlightableText`: a list of text nodes with start and end
offsets in the first and last of them. -/
structure HighlightableText where
  nodes : List Nat
  startOffset : Int
  endOffset : Int
deriving DecidableEq, Repr

/-- `CharPositionNodeFinder_.prototype.getHighlightableArea`: floor lookup
at both ends of the substring, covering the nodes between the two indices. -/
def getHighlightableArea (f : CharPositionNodeFinder) (startPos length : Nat) :
    HighlightableText :=
  let startIndex := (findNodeIndexAtPosition f startPos).toNat
  let endIndex := (findNodeIndexAtPosition f (startPos + length - 1)).toNat
  { nodes := ((f.nodePositions.drop startIndex).take (endIndex + 1 - startIndex)).map (·.node),
    startOffset := (startPos : Int) - (((f.nodePositions[startIndex]?).getD ⟨0, 0⟩).charPos : Int),
    endOffset := ((startPos + length : Nat) : Int) - (((f.nodePositions[endIndex]?).getD ⟨0, 0⟩).charPos : Int) }

/-- `bidichecker.DirChunk` (the containing block element, used only for
identity comparison in `hasSameContext`, is omitted). -/
structure DirChunk where
  isRtl : Bool
  isDeclared : Bool
  textPieces : List (List Char)
  textLength : Nat
  nodeFinder : CharPositionNodeFinder
deriving DecidableEq, Repr

/-- The `DirChunk` constructor. -/
def DirChunk.new (text : List Char) (isRtl : Bool) (node : Nat)
    (isDeclared : Bool) : DirChunk :=
  { isRtl, isDeclared, textPieces := [text], textLength := text.length,
    nodeFinder := finderNew node }

/-- `DirChunk.prototype.append`. -/
def DirChunk.append (ch : DirChunk) (text : List Char) (node : Nat) : DirChunk :=
  { ch with textPieces := ch.textPieces ++ [text],
            textLength := ch.textLength + text.length,
            nodeFinder := finderAppend ch.nodeFinder ch.textLength node }

/-- `DirChunk.prototype.getText`. -/
def DirChunk.getText (ch : DirChunk) : List Char :=
  ch.textPieces.flatten

/-- `DirChunk.prototype.isEmpty`. -/
def DirChunk.isEmpty (ch : DirChunk) : Bool :=
  ch.textPieces.all fun s => s.length == 0

/-- `DirChunk.prototype.findNodeAtPosition`. -/
def DirChunk.findNodeAtPosition (ch : DirChunk) (charPos : Nat) : Nat :=
  Bidichecker.findNodeAtPosition ch.nodeFinder charPos

/-- `DirChunk.prototype.getHighlightableArea`. -/
def DirChunk.getHighlightableArea (ch : DirChunk) (startPos length : Nat) :
    HighlightableText :=
  Bidichecker.getHighlightableArea ch.nodeFinder startPos length

/-- A chunk built from its successive text pieces `(text, node)`: the first
piece via the constructor, the rest via `append` (this is how
`bidichecker.DirChunkWalker` assembles every chunk). -/
def buildChunk (isRtl isDeclared : Bool) (first : List Char × Nat)
    (rest : List (List Char × Nat)) : DirChunk :=
  rest.foldl (fun ch p => ch.append p.1 p.2) (DirChunk.new first.1 isRtl first.2 isDeclared)

/-- The index offsets of a finder, in order. -/
def offsetsOf (f : CharPositionNodeFinder) : List Nat :=
  f.nodePositions.map (·.charPos)

/-- Strict increase of a list of offsets (the property claimed for every
sealed chunk's index). -/
def strictlyIncreasingB : List Nat → Bool
  | [] => true
  | [_] => true
  | a :: b :: t => decide (a < b) && strictlyIncreasingB (b :: t)

/-! ### Undeclared-Text detector (src/src/undeclaredtextdetector.js)

The highlightable area and the DOM location element attached to each error
are outside this model; the modelled fields are the ones the claim speaks
about (type, severity, atText, precededByText, followedByText). -/

/-- `UndeclaredTextDetector.prototype.addAdjacentNeutrals_`: a visible
neutral run immediately before or after the match downgrades severity 3 to 2
and is attached to the error. -/
def addAdjacentNeutrals (text : List Char) (m : Substr) (e : BError) : BError :=
  let e1 :=
    match findVisibleNeutralTextBeforeIndex text m.index with
    | some neutralsBefore =>
      { e with severity := if e.severity == 3 then 2 else e.severity,
               precededByText := some neutralsBefore.text }
    | none => e
  match findVisibleNeutralTextAtIndex text (m.index + m.text.length) with
  | some neutralsAfter =>
    { e1 with severity := if e1.severity == 3 then 2 else e1.severity,
              followedByText := some neutralsAfter.text }
  | none => e1

/-- `UndeclaredTextDetector.prototype.addError_` (without the collector,
highlightable-area and location parts). -/
def undeclaredTextError (chunk : DirChunk) (m : Substr) (message : String) : BError :=
  addAdjacentNeutrals chunk.getText m
    { type := message, severity := if chunk.isDeclared then 4 else 3,
      atText := some m.text }

/-- `UndeclaredTextDetector.prototype.handleChunk_`: the errors emitted for
one sealed chunk, in order. -/
def handleChunk (revision : Nat) (chunk : DirChunk) : List BError :=
  if chunk.isRtl then
    ((findLtrSubstrings chunk.getText).filter fun m => !hasOnlyLrmChars m.text).map
      fun m => undeclaredTextError chunk m "Undeclared LTR text"
  else
    ((if 2 ≤ revision then findRtlAndFakeRtlSubstrings chunk.getText
      else findRtlSubstrings chunk.getText).filter fun m => !hasOnlyRlmChars m.text).map
      fun m => undeclaredTextError chunk m "Undeclared RTL text"

/-! ### Spillover detector (src/trunk/src/spilloverdetector.js)

Events carry the data the detector reads from the walker at dispatch time:
whether the element has a `dir` attribute, whether it is the walker's
current block, the walker's `inRtl`/`parentInRtl`/`inDeclaredDir` state, the
element's text contents (`bidichecker.utils.getTextContents`, read when an
error is created), and a text node's data.  DOM nodes are represented by
their text data. -/

inductive SpilloverEvent where
  | startTag (hasDirAttr : Bool) (isCurrentBlock : Bool)
  | endTag (hasDirAttr : Bool) (isCurrentBlock : Bool) (inRtl : Bool)
      (parentInRtl : Bool) (textContents : List Char)
  | textNode (data : List Char) (inRtl : Bool) (inDeclaredDir : Bool)
deriving DecidableEq, Repr

/-- The detector's state: the spillover-candidate slot (holding the
candidate element's text contents) and the accumulated text nodes. -/
structure SpilloverState where
  candidate : Option (List Char)
  textNodes : List (List Char)
deriving DecidableEq, Repr

/-- The detector's initial state. -/
def spilloverInit : SpilloverState := { candidate := none, textNodes := [] }

/-- `SpilloverDetector.prototype.makeError_`. -/
def spilloverError (atText : List Char) (inRtl inDeclaredDir : Bool)
    (candidateContents : List Char) : BError :=
  { type := "Declared " ++ (if inRtl then "LTR" else "RTL") ++ " spillover to number",
    severity := if inDeclaredDir then 4 else 2,
    atText := some atText,
    precededByText := some candidateContents }

/-- One step of the spillover state machine
(`handleStartTag_`, `handleEndTag_`, `handleTextNode_`), returning the new
state and the errors emitted (at most one). -/
def spilloverStep (st : SpilloverState) (ev : SpilloverEvent) :
    SpilloverState × List BError :=
  match ev with
  | .startTag hasDirAttr isCurrentBlock =>
    (if hasDirAttr || isCurrentBlock then { st with candidate := none } else st, [])
  | .endTag hasDirAttr isCurrentBlock inRtl parentInRtl textContents =>
    (if isCurrentBlock then { st with candidate := none }
     else if hasDirAttr then
       if inRtl == parentInRtl then { st with candidate := none }
       else { candidate := some textContents, textNodes := [] }
     else st, [])
  | .textNode data inRtl inDeclaredDir =>
    match st.candidate with
    | none => (st, [])
    | some candidateContents =>
      let textNodes := st.textNodes ++ [data]
      match findNumberAtStart data with
      | some m =>
        let currentText := textNodes.flatten
        let postMatchLength := data.length - m.text.length
        let prefixLength := currentText.length - postMatchLength
        ({ candidate := none, textNodes := textNodes },
         [spilloverError (currentText.take prefixLength) inRtl inDeclaredDir
            candidateContents])
      | none =>
        if hasDirectionalCharacter data then
          ({ candidate := none, textNodes := textNodes }, [])
        else
          ({ candidate := some candidateContents, textNodes := textNodes }, [])

/-! ### The DOM walker's directionality state (bidichecker.DomWalker)

Elements carry the data `next_` reads: the presence of a `dir` attribute,
the computed direction (`goog.style.isRightToLeft`), blockness
(`bidichecker.utils.isBlockElement`) and displayability
(`bidichecker.utils.isDisplayable`).  The stack discipline of `next_` is
rendered as recursion over tree positions: the context a position sees is
the one pushed by its chain of ancestors. -/

inductive DomNode where
  | element (dirAttr : Bool) (isRtl : Bool) (isBlock : Bool)
      (displayable : Bool) (children : List DomNode)
  | textNode (data : List Char)
deriving Repr

/-- `bidichecker.utils.isBlockElement` on the model. -/
def DomNode.isBlockElement : DomNode → Bool
  | .element _ _ isBlock _ _ => isBlock
  | .textNode _ => false

/-- `bidichecker.utils.isDisplayable` on the model (text nodes are always
displayable). -/
def DomNode.displayableFlag : DomNode → Bool
  | .element _ _ _ displayable _ => displayable
  | .textNode _ => true

/-- `DomWalker.prototype.declaresDir_`: an element below the root with a
`dir` attribute and no block-level element child. -/
def DomNode.declaresDir (isRoot : Bool) : DomNode → Bool
  | .element dirAttr _ _ _ children =>
    dirAttr && !isRoot && !(children.any DomNode.isBlockElement)
  | .textNode _ => false

/-- The `(inRtl, inDeclaredDir)` context at the position reached by the
index path `p` below a node whose own context is `ctx`, per the pushes of
`DomWalker.prototype.next_`; `none` when the path leaves the tree or enters
a skipped (non-displayable) subtree.  A text-node position sees its parent's
context (text events do not push). -/
def walkerCtxGo : DomNode → Bool × Bool → List Nat → Option (Bool × Bool)
  | _, ctx, [] => some ctx
  | .element _ _ _ _ children, (r, d), i :: p =>
    match children[i]? with
    | some (.element cDirAttr cRtl cBlock cDisp cChildren) =>
      if cDisp then
        walkerCtxGo (.element cDirAttr cRtl cBlock cDisp cChildren)
          (cRtl,
           d || (cRtl != r) ||
             DomNode.declaresDir false (.element cDirAttr cRtl cBlock cDisp cChildren))
          p
      else none
    | some (.textNode _) => if p = [] then some (r, d) else none
    | none => none
  | .textNode _, _, _ :: _ => none

/-- The computed direction of a node (`goog.style.isRightToLeft`; the
walker is constructed on elements, a text root is given the default). -/
def DomNode.selfRtl : DomNode → Bool
  | .element _ isRtl _ _ _ => isRtl
  | .textNode _ => false

/-- The walker context at path `p` from the root: the root is traversed
with its own computed direction and `isDeclared` false (the `isRtlStack_`
is seeded with the root's own direction and `declaresDir_` excludes the
root, so the root is never attributed declared status). -/
def walkerCtxAt (root : DomNode) (p : List Nat) : Option (Bool × Bool) :=
  if root.displayableFlag then walkerCtxGo root (root.selfRtl, false) p
  else none

/-! ### Undeclared-Field detector (src/unnamed/part_002)

An element carries the attribute data the detector reads.  The explicit
direction values (`dirAttrVal`, `styleDirectionVal`, `parentDirAttrVal`)
record the declared direction when present; the source only tests their
presence (JavaScript truthiness of `element.dir` and
`element.style.direction`), while the claim's wording also speaks about
their values. -/

structure FieldElement where
  nodeName : String
  typ : String
  title : List Char := []
  value : List Char := []
  alt : List Char := []
  dirAttrVal : Option Bool := none
  styleDirectionVal : Option Bool := none
  parentDirAttrVal : Option Bool := none
  computedRtl : Bool := false
  parentComputedRtl : Bool := false
deriving DecidableEq, Repr

/-- `bidichecker.UndeclaredFieldDetector.FieldType_`. -/
inductive FieldType where
  | altText | buttonLabel | inputValue | textareaValue | titleText
deriving DecidableEq, Repr

/-- The enum values of `FieldType_`, used in error type strings. -/
def fieldTypeName : FieldType → String
  | .altText => "alt text"
  | .buttonLabel => "button label"
  | .inputValue => "input value"
  | .textareaValue => "textarea value"
  | .titleText => "title text"

/-- `UndeclaredFieldDetector.prototype.getErrorSeverity_`. -/
def getErrorSeverity (el : FieldElement) (value : List Char)
    (fieldType : FieldType) : Nat :=
  if fieldType = .inputValue ∨ fieldType = .textareaValue then 1
  else if el.dirAttrVal.isSome || el.styleDirectionVal.isSome ||
      (el.computedRtl != el.parentComputedRtl) then 4
  else if (findVisibleNeutralTextAtIndex value 0).isSome ||
      (findVisibleNeutralTextBeforeIndex value value.length).isSome then 2
  else 3

/-- `UndeclaredFieldDetector.prototype.checkField_` (without the collector
and highlightable-area parts). -/
def checkField (el : FieldElement) (value : List Char)
    (fieldType : FieldType) : List BError :=
  let isRtlElement := el.computedRtl
  let hasLtrText := !(findLtrSubstrings value).isEmpty
  let hasRtlText := !(findRtlAndFakeRtlSubstrings value).isEmpty
  if (hasLtrText != hasRtlText) && (isRtlElement != hasRtlText) then
    [{ type := "Undeclared " ++ (if isRtlElement then "LTR" else "RTL") ++ " " ++
         fieldTypeName fieldType,
       severity := getErrorSeverity el value fieldType,
       atText := some value }]
  else []

/-- `UndeclaredFieldDetector.prototype.checkFileInput_`. -/
def checkFileInput (el : FieldElement) : List BError :=
  if el.computedRtl then
    [{ type := "File input not LTR", severity := 2 }]
  else []

/-- `UndeclaredFieldDetector.prototype.checkElement_`: dispatch on the
element kind and its checked attributes. -/
def checkElement (el : FieldElement) : List BError :=
  (if el.title ≠ [] then checkField el el.title .titleText else []) ++
  (if el.nodeName = "INPUT" then
    if el.typ = "text" ∨ el.typ = "search" then checkField el el.value .inputValue
    else if el.typ = "image" then checkField el el.alt .altText
    else if el.typ = "button" ∨ el.typ = "reset" ∨ el.typ = "submit" then
      checkField el el.value .buttonLabel
    else if el.typ = "file" then checkFileInput el
    else []
  else if el.nodeName = "IMG" then checkField el el.alt .altText
  else if el.nodeName = "TEXTAREA" then checkField el el.value .textareaValue
  else [])

/-! ### Escaping and error stringification (bidichecker.utils, bidichecker.Error) -/

/-- Nonprinting characters, from `bidichecker.utils.nonprintingChars_`. -/
def isNonprintingChar (c : Char) : Bool :=
  let n := c.toNat
  (n ≤ 0x1F) || n == 0x7F || n == 0x85 || n == 0xA0 || n == 0x1680 ||
  n == 0x180E || (0x2000 ≤ n && n ≤ 0x200F) || (0x2028 ≤ n && n ≤ 0x202F) ||
  n == 0x205F || n == 0x3000

/-- The backslash character. -/
def backslashChar : Char := Char.ofNat 92

/-- The single-quote character. -/
def singleQuoteChar : Char := Char.ofNat 39

/-- The double-quote character. -/
def doubleQuoteChar : Char := Char.ofNat 34

/-- `bidichecker.utils.escapeChar` (the memoization cache does not change
the result): the eight preseeded escapes, `\uXXXX` (zero-padded, lowercase
hex) for other nonprinting characters, and the character itself otherwise. -/
def escapeChar (c : Char) : List Char :=
  if c = Char.ofNat 0x08 then [backslashChar, 'b']
  else if c = Char.ofNat 0x0C then [backslashChar, 'f']
  else if c = Char.ofNat 0x0A then [backslashChar, 'n']
  else if c = Char.ofNat 0x0D then [backslashChar, 'r']
  else if c = Char.ofNat 0x09 then [backslashChar, 't']
  else if c = doubleQuoteChar then [backslashChar, doubleQuoteChar]
  else if c = singleQuoteChar then [backslashChar, singleQuoteChar]
  else if c = backslashChar then [backslashChar, backslashChar]
  else if isNonprintingChar c then
    let cc := c.toNat
    [backslashChar, 'u'] ++
      (if cc < 16 then ['0', '0', '0']
       else if cc < 256 then ['0', '0']
       else if cc < 4096 then ['0']
       else []) ++
      Nat.toDigits 16 cc
  else [c]

/-- `bidichecker.utils.escapeString`. -/
def escapeString (s : List Char) : List Char :=
  (s.map escapeChar).flatten

/-- `bidichecker.utils.singleQuoteString`. -/
def singleQuoteString (s : List Char) : List Char :=
  [singleQuoteChar] ++ escapeString s ++ [singleQuoteChar]

/-- The data fields of a full `bidichecker.Error` as they appear in a
serialized record (the highlightable area lives in a side table keyed by
`id` and is not serialized). -/
structure ErrorFields where
  id : Nat
  type : String
  severity : Nat
  atText : Option (List Char) := none
  locationDescription : Option (List Char) := none
  precededByText : Option (List Char) := none
  followedByText : Option (List Char) := none
deriving DecidableEq, Repr

/-- `bidichecker.Error.prototype.toString`: `[severity] type`, then the
truncated quoted `atText`, the quoted adjacency texts and the location
description, each skipped when null or empty (JavaScript truthiness). -/
def errorToString (e : ErrorFields) : List Char :=
  ("[".data ++ Nat.toDigits 10 e.severity ++ "] ".data ++ e.type.data) ++
  (match e.atText with
   | some v =>
     if v ≠ [] then ": ".data ++ singleQuoteString (truncateString v 20) else []
   | none => []) ++
  (match e.precededByText with
   | some v => if v ≠ [] then " preceded by ".data ++ singleQuoteString v else []
   | none => []) ++
  (match e.followedByText with
   | some v => if v ≠ [] then " followed by ".data ++ singleQuoteString v else []
   | none => []) ++
  (match e.locationDescription with
   | some v => if v ≠ [] then " in ".data ++ v else []
   | none => [])

/-- A serialized error record: the fields of `bidichecker.Error` as written
by `bidichecker.Error.serialize`, each possibly absent-or-null. -/
structure RawError where
  id : Option Nat := none
  type : Option String := none
  severity : Option Nat := none
  atText : Option (List Char) := none
  locationDescription : Option (List Char) := none
  precededByText : Option (List Char) := none
  followedByText : Option (List Char) := none
  asString : Option (List Char) := none
deriving DecidableEq, Repr

/-- `bidichecker.Error.serialize`, per error: all data fields, plus an
`asString` field holding `toString()`. -/
def serializeError (e : ErrorFields) : RawError :=
  { id := some e.id, type := some e.type, severity := some e.severity,
    atText := e.atText, locationDescription := e.locationDescription,
    precededByText := e.precededByText, followedByText := e.followedByText,
    asString := some (errorToString e) }

/-- The `bidichecker.Error` constructor applied to a raw object: reads the
fields `id, type, severity, atText, locationDescription, precededByText,
followedByText` (missing fields become null) and throws when a required
field (`id`, `type`, `severity`) is null. -/
def reconstructError (raw : RawError) : Except String ErrorFields :=
  match raw.id, raw.type, raw.severity with
  | some id, some type, some severity =>
    .ok { id, type, severity, atText := raw.atText,
          locationDescription := raw.locationDescription,
          precededByText := raw.precededByText,
          followedByText := raw.followedByText }
  | none, _, _ => .error "Required field id not found in bidichecker.Error."
  | some _, none, _ => .error "Required field type not found in bidichecker.Error."
  | some _, some _, none => .error "Required field severity not found in bidichecker.Error."

/-! ### Regular expressions for filters (src/src/filterfactory.js)

The factory compiles every pattern it receives as `^(pattern)$`
(`getRegexpParam_`).  Pattern syntax is modelled by an abstract
syntax tree `Reg` with Brzozowski-derivative matching; a compiled JavaScript
regexp is the pattern plus its two anchoring flags, and `test` succeeds when
some span of the string matches the pattern, with the anchors pinning the
span's ends to the ends of the string. -/

inductive Reg where
  | emp
  | eps
  | chr (c : Char)
  | anyChar
  | alt (r1 r2 : Reg)
  | cat (r1 r2 : Reg)
  | star (r : Reg)
deriving DecidableEq, Repr

/-- Does the pattern accept the empty string? -/
def Reg.nullable : Reg → Bool
  | .emp => false
  | .eps => true
  | .chr _ => false
  | .anyChar => false
  | .alt r1 r2 => r1.nullable || r2.nullable
  | .cat r1 r2 => r1.nullable && r2.nullable
  | .star _ => true

/-- Brzozowski derivative of a pattern by one character. -/
def Reg.deriv : Reg → Char → Reg
  | .emp, _ => .emp
  | .eps, _ => .emp
  | .chr c, a => if a = c then .eps else .emp
  | .anyChar, _ => .eps
  | .alt r1 r2, a => .alt (r1.deriv a) (r2.deriv a)
  | .cat r1 r2, a =>
    if r1.nullable then .alt (.cat (r1.deriv a) r2) (r2.deriv a)
    else .cat (r1.deriv a) r2
  | .star r, a => .cat (r.deriv a) (.star r)

/-- Whole-string match of a pattern. -/
def rmatch (r : Reg) (s : List Char) : Bool :=
  (s.foldl Reg.deriv r).nullable

/-- A compiled JavaScript regexp: the pattern and its anchoring. -/
structure JsRegExp where
  source : Reg
  anchoredStart : Bool
  anchoredEnd : Bool
deriving DecidableEq, Repr

/-- All decompositions of a string into a prefix and the remainder. -/
def splitsOf : List Char → List (List Char × List Char)
  | [] => [([], [])]
  | c :: t => ([], c :: t) :: (splitsOf t).map fun p => (c :: p.1, p.2)

/-- `RegExp.prototype.test`: some span matches the pattern, the anchors
pinning the span's start and end to the string's ends. -/
def regExpTest (r : JsRegExp) (s : List Char) : Bool :=
  (splitsOf s).any fun preRest =>
    (splitsOf preRest.2).any fun midSuf =>
      (!r.anchoredStart || preRest.1.isEmpty) &&
      (!r.anchoredEnd || midSuf.2.isEmpty) &&
      rmatch r.source midSuf.1

/-- `FilterFactory.getRegexpParam_`'s compilation step:
`new RegExp('^(' + pattern + ')$')`, anchoring the pattern at both ends. -/
def mkAnchoredRegExp (pattern : Reg) : JsRegExp :=
  { source := pattern, anchoredStart := true, anchoredEnd := true }

/-! ### Filters (src/src/filterfactory.js)

A location element is modelled by the chain of records read while walking
`parentNode` links from the element upward; empty `id`/`className` strings
stand for absent attributes (JavaScript falsiness). -/

structure DomAncestor where
  id : String
  className : String
deriving DecidableEq, Repr

/-- One element of a filter's `locationElements` argument, given together
with its ancestor chain. -/
structure LocationElement where
  selfAndAncestors : List DomAncestor
deriving DecidableEq, Repr

/-- The whitespace class of the JavaScript regexp `\s`, used by
`className.split(/\s/)`. -/
def isJsSpaceChar (c : Char) : Bool :=
  let n := c.toNat
  (0x9 ≤ n && n ≤ 0xD) || n == 0x20 || n == 0xA0 || n == 0x1680 ||
  (0x2000 ≤ n && n ≤ 0x200A) || n == 0x2028 || n == 0x2029 || n == 0x202F ||
  n == 0x205F || n == 0x3000 || n == 0xFEFF

/-- `String.prototype.split(/\s/)`: split at every single whitespace
character (adjacent separators produce empty pieces). -/
def splitWsAux : List Char → List Char → List (List Char)
  | [], acc => [acc.reverse]
  | c :: rest, acc =>
    if isJsSpaceChar c then acc.reverse :: splitWsAux rest []
    else splitWsAux rest (c :: acc)

/-- `className.split(/\s/)` on a class attribute value. -/
def splitWhitespace (s : List Char) : List (List Char) :=
  splitWsAux s []

/-- The filter classes of `bidichecker.FilterFactory` (each constructor
carries the data its class stores; regexp variants hold the compiled,
anchored regexp produced by `getRegexpParam_`). -/
inductive BFilter where
  | andF (filter1 filter2 : BFilter)
  | orF (filter1 filter2 : BFilter)
  | notF (filter : BFilter)
  | atTextF (atText : String)
  | atTextRegexpF (atTextRegexp : JsRegExp)
  | followedByTextF (followedByText : String)
  | followedByTextRegexpF (followedByTextRegexp : JsRegExp)
  | precededByTextF (precededByText : String)
  | precededByTextRegexpF (precededByTextRegexp : JsRegExp)
  | locationClassF (className : String)
  | locationClassRegexpF (classRegexp : JsRegExp)
  | locationIdF (idValue : String)
  | locationIdRegexpF (idRegexp : JsRegExp)
  | severityF (severityThreshold : Int)
  | typeF (typeValue : String)
deriving DecidableEq, Repr

/-- The `isSuppressed` methods of the filter classes. -/
def isSuppressed (f : BFilter) (error : BError)
    (locationElements : List LocationElement) : Bool :=
  match f with
  | .andF f1 f2 =>
    isSuppressed f1 error locationElements && isSuppressed f2 error locationElements
  | .orF f1 f2 =>
    isSuppressed f1 error locationElements || isSuppressed f2 error locationElements
  | .notF f1 => !isSuppressed f1 error locationElements
  | .atTextF s => s.data == (error.atText.getD [])
  | .atTextRegexpF re => regExpTest re (error.atText.getD [])
  | .followedByTextF s => s.data == (error.followedByText.getD [])
  | .followedByTextRegexpF re => regExpTest re (error.followedByText.getD [])
  | .precededByTextF s => s.data == (error.precededByText.getD [])
  | .precededByTextRegexpF re => regExpTest re (error.precededByText.getD [])
  | .locationClassF className =>
    locationElements.any fun le =>
      le.selfAndAncestors.any fun current =>
        current.className ≠ "" &&
          (splitWhitespace current.className.data).any fun cn => className.data == cn
  | .locationClassRegexpF re =>
    locationElements.any fun le =>
      le.selfAndAncestors.any fun current =>
        current.className ≠ "" &&
          (splitWhitespace current.className.data).any fun cn => regExpTest re cn
  | .locationIdF idValue =>
    locationElements.any fun le =>
      le.selfAndAncestors.any fun current =>
        current.id ≠ "" && idValue == current.id
  | .locationIdRegexpF re =>
    locationElements.any fun le =>
      le.selfAndAncestors.any fun current =>
        current.id ≠ "" && regExpTest re current.id.data
  | .severityF threshold => decide (threshold ≤ (error.severity : Int))
  | .typeF typeValue => typeValue == error.type

/-- `FilterFactory.severityFrom`. -/
def severityFrom (severityThreshold : Int) : BFilter :=
  .severityF severityThreshold

/-- `FilterFactory.type`. -/
def typeFilter (type : String) : BFilter :=
  .typeF type

/-- `FilterFactory.and`. -/
def andFilter (filter1 filter2 : BFilter) : BFilter :=
  .andF filter1 filter2

/-- `FilterFactory.atText` (`atText || ''` turns null into the empty
string). -/
def atTextFactory (atText : Option String) : BFilter :=
  .atTextF (atText.getD "")

/-- `FilterFactory.atTextRegexp`, applied to a RegExp-object argument
(`getRegexpParam_` anchors the pattern). -/
def atTextRegexpFactory (pattern : Reg) : BFilter :=
  .atTextRegexpF (mkAnchoredRegExp pattern)

/-! ### Filter construction from data (FilterFactory.constructFilter_)

Bare filter definitions are JavaScript values: strings, numbers, booleans,
RegExp objects, already-constructed filter objects, null, or plain objects
with named fields.  Construction failures are thrown strings, modelled with
`Except` (property access on null throws a TypeError in JavaScript; the
model reports it through the same error channel with a different message).
JavaScript pattern-source parsing is outside the model: a pattern string is
interpreted as the literal sequence of its characters; the anchoring
theorems quantify over every pattern syntax tree, so they apply to any
parse result. -/

inductive JsVal where
  | str (s : String)
  | num (n : Int)
  | boolVal (b : Bool)
  | regexp (source : Reg)
  | builtFilter (f : BFilter)
  | nullVal
  | obj (fields : List (String × JsVal))
deriving Repr

/-- The JavaScript `typeof` operator on the modelled values
(`typeof null` is `"object"`). -/
def typeofStr : JsVal → String
  | .str _ => "string"
  | .num _ => "number"
  | .boolVal _ => "boolean"
  | .regexp _ => "object"
  | .builtFilter _ => "object"
  | .nullVal => "object"
  | .obj _ => "object"

/-- Property lookup on an object's field list (first binding wins). -/
def lookupField : List (String × JsVal) → String → Option JsVal
  | [], _ => none
  | (k, v) :: rest, name => if k = name then some v else lookupField rest name

/-- Property lookup through a value (`undefined` on non-objects). -/
def getFieldOpt : JsVal → String → Option JsVal
  | .obj fields, name => lookupField fields name
  | _, _ => none

theorem lookupField_sizeOf {fields : List (String × JsVal)} {name : String}
    {v : JsVal} (h : lookupField fields name = some v) :
    sizeOf v < sizeOf fields := by
  induction fields with
  | nil => simp [lookupField] at h
  | cons kv rest ih =>
    obtain ⟨k, w⟩ := kv
    simp only [lookupField] at h
    split at h
    · cases h
      simp only [List.cons.sizeOf_spec, Prod.mk.sizeOf_spec]
      omega
    · have := ih h
      simp only [List.cons.sizeOf_spec, Prod.mk.sizeOf_spec]
      omega

/-- `FilterFactory.getStringParam_` (existence is checked before the type,
as in `checkParam_`). -/
def getStringParam (fields : List (String × JsVal)) (opcode field : String) :
    Except String String :=
  match lookupField fields field with
  | none => .error ("No " ++ field ++ " parameter found for " ++ opcode ++ " filter")
  | some (.str s) => .ok s
  | some _ =>
    .error ("Wrong type for " ++ field ++ " parameter of " ++ opcode ++
      " filter; expected string")

/-- `FilterFactory.getNumberParam_`. -/
def getNumberParam (fields : List (String × JsVal)) (opcode field : String) :
    Except String Int :=
  match lookupField fields field with
  | none => .error ("No " ++ field ++ " parameter found for " ++ opcode ++ " filter")
  | some (.num n) => .ok n
  | some _ =>
    .error ("Wrong type for " ++ field ++ " parameter of " ++ opcode ++
      " filter; expected number")

/-- The literal-character interpretation of a pattern string (pattern
parsing is abstracted; see the section comment). -/
def strToReg (s : String) : Reg :=
  s.data.foldr (fun c r => .cat (.chr c) r) .eps

/-- `FilterFactory.getRegexpParam_`: a string or RegExp field, compiled
anchored at both ends. -/
def getRegexpParamF (fields : List (String × JsVal)) (opcode field : String) :
    Except String JsRegExp :=
  match lookupField fields field with
  | none => .error ("No " ++ field ++ " parameter found for " ++ opcode ++ " filter")
  | some (.str s) => .ok (mkAnchoredRegExp (strToReg s))
  | some (.regexp r) => .ok (mkAnchoredRegExp r)
  | some _ =>
    .error ("Wrong type for " ++ field ++ " parameter of " ++ opcode ++
      " filter; expected string or RegExp")

mutual

/-- `FilterFactory.constructFilter_` on an object's fields: dispatch on the
`opcode` field. -/
def constructFilterFields (fields : List (String × JsVal)) : Except String BFilter :=
  match lookupField fields "opcode" with
    | some (.str opcode) =>
      if opcode = "AND" then do
        let f1 ← constructFilterParam fields "AND" "filter1"
        let f2 ← constructFilterParam fields "AND" "filter2"
        pure (.andF f1 f2)
      else if opcode = "AT_TEXT" then
        (getStringParam fields "AT_TEXT" "atText").map .atTextF
      else if opcode = "AT_TEXT_REGEXP" then
        (getRegexpParamF fields "AT_TEXT_REGEXP" "atTextRegexp").map .atTextRegexpF
      else if opcode = "FOLLOWED_BY_TEXT" then
        (getStringParam fields "FOLLOWED_BY_TEXT" "followedByText").map .followedByTextF
      else if opcode = "FOLLOWED_BY_TEXT_REGEXP" then
        (getRegexpParamF fields "FOLLOWED_BY_TEXT_REGEXP"
          "followedByTextRegexp").map .followedByTextRegexpF
      else if opcode = "LOCATION_CLASS" then
        (getStringParam fields "LOCATION_CLASS" "className").map .locationClassF
      else if opcode = "LOCATION_CLASS_REGEXP" then
        (getRegexpParamF fields "LOCATION_CLASS_REGEXP" "classRegexp").map .locationClassRegexpF
      else if opcode = "LOCATION_ID" then
        (getStringParam fields "LOCATION_ID" "id").map .locationIdF
      else if opcode = "LOCATION_ID_REGEXP" then
        (getRegexpParamF fields "LOCATION_ID_REGEXP" "idRegexp").map .locationIdRegexpF
      else if opcode = "NOT" then
        (constructFilterParam fields "NOT" "filter").map .notF
      else if opcode = "OR" then do
        let f1 ← constructFilterParam fields "OR" "filter1"
        let f2 ← constructFilterParam fields "OR" "filter2"
        pure (.orF f1 f2)
      else if opcode = "PRECEDED_BY_TEXT" then
        (getStringParam fields "PRECEDED_BY_TEXT" "precededByText").map .precededByTextF
      else if opcode = "PRECEDED_BY_TEXT_REGEXP" then
        (getRegexpParamF fields "PRECEDED_BY_TEXT_REGEXP"
          "precededByTextRegexp").map .precededByTextRegexpF
      else if opcode = "SEVERITY" then
        (getNumberParam fields "SEVERITY" "severityThreshold").map .severityF
      else if opcode = "TYPE" then
        (getStringParam fields "TYPE" "type").map .typeF
      else .error "Unknown filter opcode"
    | _ => .error "Unknown filter opcode"
termination_by (sizeOf fields, 1)
decreasing_by
  all_goals exact Prod.Lex.right (sizeOf fields) (by omega)

/-- `FilterFactory.getFilterParam_`: a subfilter field holding either a
constructed filter object or a raw filter object (with recursive
construction). -/
def constructFilterParam (fields : List (String × JsVal))
    (opcode field : String) : Except String BFilter :=
  match h : lookupField fields field with
  | none => .error ("No " ++ field ++ " parameter found for " ++ opcode ++ " filter")
  | some (.str _) | some (.num _) | some (.boolVal _) =>
    .error ("Wrong type for " ++ field ++ " parameter of " ++ opcode ++
      " filter; expected object")
  | some (.builtFilter f) => .ok f
  | some (.obj subFields) =>
    match lookupField subFields "opcode" with
    | some (.str _) => constructFilterFields subFields
    | _ =>
      .error ("Cannot make a filter out of the " ++ field ++
        " parameter of " ++ opcode ++ " filter")
  | some (.regexp _) | some .nullVal =>
    .error ("Cannot make a filter out of the " ++ field ++
      " parameter of " ++ opcode ++ " filter")
termination_by (sizeOf fields, 0)
decreasing_by
  exact Prod.Lex.left _ _
    (by have := lookupField_sizeOf h; simp only [JsVal.obj.sizeOf_spec] at this; omega)

end

/-- `FilterFactory.constructFilter_`: a bare filter definition is an object
(property access on a non-object yields `undefined`, hitting the
unknown-opcode default). -/
def constructFilter (v : JsVal) : Except String BFilter :=
  match v with
  | .obj fields => constructFilterFields fields
  | _ => .error "Unknown filter opcode"

/-! ### Well-formedness of bare filter definitions (claim side)

The spec's notion of a valid filter definition: a known opcode together
with its required fields, present and of the right types, with well-formed
subfilters.  This predicate is stated from the spec's words and compared
with `constructFilter` in the corresponding theorem. -/

/-- A required string field is present with type string. -/
def wellFormedString (fields : List (String × JsVal)) (field : String) : Bool :=
  match lookupField fields field with
  | some (.str _) => true
  | _ => false

/-- A required number field is present with type number. -/
def wellFormedNumber (fields : List (String × JsVal)) (field : String) : Bool :=
  match lookupField fields field with
  | some (.num _) => true
  | _ => false

/-- A required regexp field is present as a string or a RegExp object. -/
def wellFormedRegexp (fields : List (String × JsVal)) (field : String) : Bool :=
  match lookupField fields field with
  | some (.str _) => true
  | some (.regexp _) => true
  | _ => false

mutual

/-- A well-formed bare filter definition's fields: known opcode, required
fields present and well-typed, subfilters well-formed. -/
def wellFormedFilterFields (fields : List (String × JsVal)) : Bool :=
  match lookupField fields "opcode" with
    | some (.str opcode) =>
      if opcode = "AND" then
        wellFormedParam fields "filter1" && wellFormedParam fields "filter2"
      else if opcode = "AT_TEXT" then wellFormedString fields "atText"
      else if opcode = "AT_TEXT_REGEXP" then wellFormedRegexp fields "atTextRegexp"
      else if opcode = "FOLLOWED_BY_TEXT" then wellFormedString fields "followedByText"
      else if opcode = "FOLLOWED_BY_TEXT_REGEXP" then
        wellFormedRegexp fields "followedByTextRegexp"
      else if opcode = "LOCATION_CLASS" then wellFormedString fields "className"
      else if opcode = "LOCATION_CLASS_REGEXP" then wellFormedRegexp fields "classRegexp"
      else if opcode = "LOCATION_ID" then wellFormedString fields "id"
      else if opcode = "LOCATION_ID_REGEXP" then wellFormedRegexp fields "idRegexp"
      else if opcode = "NOT" then wellFormedParam fields "filter"
      else if opcode = "OR" then
        wellFormedParam fields "filter1" && wellFormedParam fields "filter2"
      else if opcode = "PRECEDED_BY_TEXT" then wellFormedString fields "precededByText"
      else if opcode = "PRECEDED_BY_TEXT_REGEXP" then
        wellFormedRegexp fields "precededByTextRegexp"
      else if opcode = "SEVERITY" then wellFormedNumber fields "severityThreshold"
      else if opcode = "TYPE" then wellFormedString fields "type"
      else false
    | _ => false
termination_by (sizeOf fields, 1)
decreasing_by
  all_goals exact Prod.Lex.right (sizeOf fields) (by omega)

/-- A well-formed subfilter field: an already-constructed filter, or a raw
well-formed filter definition. -/
def wellFormedParam (fields : List (String × JsVal)) (field : String) : Bool :=
  match h : lookupField fields field with
  | some (.builtFilter _) => true
  | some (.obj subFields) =>
    match lookupField subFields "opcode" with
    | some (.str _) => wellFormedFilterFields subFields
    | _ => false
  | _ => false
termination_by (sizeOf fields, 0)
decreasing_by
  exact Prod.Lex.left _ _
    (by have := lookupField_sizeOf h; simp only [JsVal.obj.sizeOf_spec] at this; omega)

end

/-- A well-formed bare filter definition: an object with well-formed fields. -/
def wellFormedFilter : JsVal → Bool
  | .obj fields => wellFormedFilterFields fields
  | _ => false

/-! ### Scanner and error collector control flow
(src/trunk/src/spilloverdetector.js lines 229 onward holds
`bidichecker.Scanner`; the collector is in the file holding
`bidichecker.ErrorCollector`)

A scan pass over one frame's DOM is abstracted to the list of findings its
detectors post (each an error with its location-element chain: the detector
code contains no throw sites, so within the model it is a total function of
the frame's content).  The mutable shared collector with thrown-string
exceptions is modelled by explicit state paired with an optional thrown
value; the catch block around frame recursion keeps the state accumulated
so far and discards the exception.  The thrown value is modelled as the
error record itself (the source throws `error.toString() + '\n'`). -/

/-- One detector finding: the error and the location chain passed to
`ErrorCollector.prototype.addError`. -/
structure Finding where
  error : BError
  locationElements : List LocationElement

/-- A frame subtree: whether its content document is accessible
(cross-origin access throws), the findings its own DOM level produces, and
its child frames in discovery order. -/
inductive FrameTree where
  | frame (accessible : Bool) (findings : List Finding) (children : List FrameTree)

/-- `ErrorCollector.prototype.addError`: append the error if every filter
fails to suppress it; in throw-on-error mode a non-suppressed error is
thrown (after being appended). -/
def collectorAdd (filters : List BFilter) (throwOnError : Bool)
    (errs : List BError) (e : BError) (locs : List LocationElement) :
    List BError × Option BError :=
  if filters.all fun f => !isSuppressed f e locs then
    (errs ++ [e], if throwOnError then some e else none)
  else (errs, none)

/-- Posting a list of findings to the collector in order, stopping at a
thrown error. -/
def collectorAddAll (filters : List BFilter) (throwOnError : Bool) :
    List Finding → List BError → List BError × Option BError
  | [], errs => (errs, none)
  | f :: rest, errs =>
    match collectorAdd filters throwOnError errs f.error f.locationElements with
    | (errs1, some ex) => (errs1, some ex)
    | (errs1, none) => collectorAddAll filters throwOnError rest errs1

mutual

/-- `Scanner.prototype.scanDomRecursively_` on one frame: run the detectors
(post the findings), then recurse into child frames.  An exception from the
frame's own findings propagates to the caller. -/
def scanFrame (filters : List BFilter) (throwOnError : Bool) :
    FrameTree → List BError → List BError × Option BError
  | .frame _ findings children, errs =>
    match collectorAddAll filters throwOnError findings errs with
    | (errs1, some ex) => (errs1, some ex)
    | (errs1, none) => scanChildren filters throwOnError children errs1

/-- The frame loop of `scanDomRecursively_`: each child frame's body access
and recursive scan run inside `try { ... } catch (e) { }`, so an
inaccessible frame is skipped and any exception from the recursive scan is
swallowed, the collector state being kept. -/
def scanChildren (filters : List BFilter) (throwOnError : Bool) :
    List FrameTree → List BError → List BError × Option BError
  | [], errs => (errs, none)
  | FrameTree.frame accessible findings children :: rest, errs =>
    scanChildren filters throwOnError rest
      (if accessible then
        (scanFrame filters throwOnError
          (.frame accessible findings children) errs).1
       else errs)

end

/-! Claim-side total scan: the list of errors a scan is required to return,
with inaccessible frames skipped and no exception channel. -/

/-- The errors accepted from a list of findings (claim side). -/
def pureCollect (filters : List BFilter) :
    List Finding → List BError → List BError
  | [], errs => errs
  | f :: rest, errs =>
    pureCollect filters rest
      (if filters.all fun flt => !isSuppressed flt f.error f.locationElements then
        errs ++ [f.error]
       else errs)

mutual

/-- The error list of a whole scan (claim side): a total function. -/
def pureScanFrame (filters : List BFilter) :
    FrameTree → List BError → List BError
  | .frame _ findings children, errs =>
    pureScanChildren filters children (pureCollect filters findings errs)

/-- Claim-side frame loop: inaccessible frames contribute nothing. -/
def pureScanChildren (filters : List BFilter) :
    List FrameTree → List BError → List BError
  | [], errs => errs
  | FrameTree.frame accessible findings children :: rest, errs =>
    pureScanChildren filters rest
      (if accessible then
        pureScanFrame filters (.frame accessible findings children) errs
       else errs)

end

/-! ## Supporting lemmas -/

theorem ltr_not_rtl {c : Char} (h : isLtrChar c = true) : isRtlChar c = false := by
  simp only [isLtrChar, Bool.or_eq_true, Bool.and_eq_true, decide_eq_true_eq,
    beq_iff_eq] at h
  simp only [isRtlChar, Bool.or_eq_false_iff, Bool.and_eq_false_iff,
    decide_eq_false_iff_not, beq_eq_false_iff_ne, ne_eq]
  omega

theorem rtl_not_ltr {c : Char} (h : isRtlChar c = true) : isLtrChar c = false := by
  simp only [isRtlChar, Bool.or_eq_true, Bool.and_eq_true, decide_eq_true_eq,
    beq_iff_eq] at h
  simp only [isLtrChar, Bool.or_eq_false_iff, Bool.and_eq_false_iff,
    decide_eq_false_iff_not, beq_eq_false_iff_ne, ne_eq]
  omega

theorem rtl_not_neutral {c : Char} (h : isRtlChar c = true) :
    isNeutralChar c = false := by
  simp only [isRtlChar, Bool.or_eq_true, Bool.and_eq_true, decide_eq_true_eq,
    beq_iff_eq] at h
  simp only [isNeutralChar, isNonWhiteNeutralChar, Bool.or_eq_false_iff,
    Bool.and_eq_false_iff, decide_eq_false_iff_not, beq_eq_false_iff_ne, ne_eq]
  omega

/-- Unfolding `fakeChain` when no unit matches. -/
theorem fakeChain_none {l : List Char} (h : fakeUnitAt l = none) :
    fakeChain l = none := by
  rw [fakeChain]
  split
  · rfl
  next u rest hu => rw [h] at hu; exact absurd hu (by simp)

/-- Unfolding `fakeChain` when a unit matches. -/
theorem fakeChain_some {l u rest : List Char}
    (h : fakeUnitAt l = some (u, rest)) :
    fakeChain l =
      match fakeChain (rest.dropWhile isNeutralChar) with
      | some (more, rest3) =>
        some (u ++ rest.takeWhile isNeutralChar ++ more, rest3)
      | none =>
        some (u ++ rest.takeWhile isNeutralChar, rest.dropWhile isNeutralChar) := by
  rw [fakeChain]
  split
  next hu => rw [h] at hu; exact absurd hu (by simp)
  next u' rest' hu =>
    rw [h] at hu
    obtain ⟨rfl, rfl⟩ : u = u' ∧ rest = rest' := by simpa using hu
    rfl

/-- Unfolding `findRtlAndFakeAux` at an RTL character. -/
theorem findRtlAndFakeAux_cons_rtl {c : Char} {rest : List Char} {i : Nat}
    (h : isRtlChar c = true) :
    findRtlAndFakeAux (c :: rest) i =
      ⟨c :: runBody isRtlChar (fun d => isLtrChar d || isBidiControlChar d) rest, i⟩ ::
        findRtlAndFakeAux
          (rest.drop (runBody isRtlChar (fun d => isLtrChar d || isBidiControlChar d) rest).length)
          (i + 1 + (runBody isRtlChar (fun d => isLtrChar d || isBidiControlChar d) rest).length) := by
  rw [findRtlAndFakeAux]
  simp [h]

/-- Unfolding `findRtlAndFakeAux` at a fake-RTL match. -/
theorem findRtlAndFakeAux_cons_fake {c : Char} {rest m rest2 : List Char} {i : Nat}
    (h : isRtlChar c = false) (h2 : fakeChain (c :: rest) = some (m, rest2)) :
    findRtlAndFakeAux (c :: rest) i =
      ⟨m, i⟩ :: findRtlAndFakeAux rest2 (i + m.length) := by
  rw [findRtlAndFakeAux]
  rw [if_neg (by simp [h])]
  split
  next m' rest' hc =>
    rw [h2] at hc
    obtain ⟨rfl, rfl⟩ : m = m' ∧ rest2 = rest' := by simpa using hc
    rfl
  next hc => rw [h2] at hc; exact absurd hc (by simp)

/-- Unfolding `findRtlAndFakeAux` at a position with no match. -/
theorem findRtlAndFakeAux_cons_other {c : Char} {rest : List Char} {i : Nat}
    (h : isRtlChar c = false) (h2 : fakeChain (c :: rest) = none) :
    findRtlAndFakeAux (c :: rest) i = findRtlAndFakeAux rest (i + 1) := by
  rw [findRtlAndFakeAux]
  rw [if_neg (by simp [h])]
  split
  next m' rest' hc => rw [h2] at hc; exact absurd hc (by simp)
  next hc => rfl

/-! ## Claim C7: severity and type filters -/

/-- C7: a filter built by `severityFrom(3)` suppresses exactly the errors of
severity numerically at least 3 (so severities 1 and 2 are never suppressed
by it), and `and(type(t), severityFrom(3))` suppresses exactly the errors
with type equal to `t` and severity at least 3, leaving type-`t` errors of
severity 1-2 and all other-type errors unsuppressed. -/
theorem C7_severity_and_type_filters (t : String) (e : BError)
    (locs : List LocationElement) :
    (isSuppressed (severityFrom 3) e locs = true ↔ 3 ≤ e.severity) ∧
    (isSuppressed (andFilter (typeFilter t) (severityFrom 3)) e locs = true ↔
      (e.type = t ∧ 3 ≤ e.severity)) := by
  constructor
  · simp only [severityFrom, isSuppressed, decide_eq_true_eq]
    exact ⟨fun h => by exact_mod_cast h, fun h => by exact_mod_cast h⟩
  · simp only [andFilter, typeFilter, severityFrom, isSuppressed,
      Bool.and_eq_true, beq_iff_eq, decide_eq_true_eq]
    constructor
    · rintro ⟨h1, h2⟩
      exact ⟨h1.symm, by exact_mod_cast h2⟩
    · rintro ⟨h1, h2⟩
      exact ⟨h1.symm, by exact_mod_cast h2⟩

/-! ## Claim C8: error serialization round-trip -/

/-- C8: serializing an error and reconstructing from the raw record
preserves type, severity and the optional text fields exactly (the whole
record round-trips); the `asString` written at serialization time is the
original error's `toString()`; and reconstruction fails exactly when one of
the required fields `id`, `type`, `severity` is absent. -/
theorem C8_serialization_roundtrip :
    (∀ e : ErrorFields,
      reconstructError (serializeError e) = Except.ok e ∧
      (serializeError e).asString = some (errorToString e)) ∧
    (∀ raw : RawError,
      (reconstructError raw).isOk =
        (raw.id.isSome && raw.type.isSome && raw.severity.isSome)) := by
  constructor
  · intro e
    exact ⟨rfl, rfl⟩
  · intro raw
    rcases raw with ⟨id, type, severity, _, _, _, _, _⟩
    rcases id <;> rcases type <;> rcases severity <;> rfl

/-! ## Claim C2: the spillover state machine -/

/-- C2: an element-end event for a non-block element with an explicit `dir`
attribute whose closing changes the ambient direction makes that element the
spillover candidate and empties the accumulated-text buffer (emitting
nothing); and while a candidate is set, a text node whose text matches
`^[N]*\d` produces exactly one error of type `Declared X spillover to
number` with `X` the opposite of the ambient direction at the text node,
severity 4 inside a declared-directionality context and 2 otherwise, and
`precededByText` the full text contents of the candidate element, the
candidate then being cleared. -/
theorem C2_spillover_machine :
    (∀ (st : SpilloverState) (inRtl parentInRtl : Bool) (contents : List Char),
      inRtl ≠ parentInRtl →
      spilloverStep st (.endTag true false inRtl parentInRtl contents) =
        ({ candidate := some contents, textNodes := [] }, [])) ∧
    (∀ (st : SpilloverState) (contents data : List Char) (inRtl inDeclaredDir : Bool)
      (m : Substr),
      st.candidate = some contents →
      findNumberAtStart data = some m →
      spilloverStep st (.textNode data inRtl inDeclaredDir) =
        ({ candidate := none, textNodes := st.textNodes ++ [data] },
         [{ type := "Declared " ++ (if inRtl then "LTR" else "RTL") ++
              " spillover to number",
            severity := if inDeclaredDir then 4 else 2,
            atText := some ((st.textNodes ++ [data]).flatten.take
              ((st.textNodes ++ [data]).flatten.length -
                (data.length - m.text.length))),
            precededByText := some contents,
            followedByText := none }])) := by
  constructor
  · intro st inRtl parentInRtl contents h
    simp only [spilloverStep, Bool.false_eq_true, if_false, if_true, Bool.true_eq_false]
    rw [if_neg (by simpa using h)]
  · intro st contents data inRtl inDeclaredDir m h1 h2
    simp only [spilloverStep, h1, h2, spilloverError]

/-- Witness for C2 at concrete inputs. -/
theorem C2_spillover_machine_witness :
    (spilloverStep spilloverInit
        (.endTag true false false true ['f', 'o', 'o']) =
      ({ candidate := some ['f', 'o', 'o'], textNodes := [] }, [])) ∧
    (spilloverStep { candidate := some ['f', 'o', 'o'], textNodes := [] }
        (.textNode [' ', '4', '2'] false false) =
      ({ candidate := none, textNodes := [[' ', '4', '2']] },
       [{ type := "Declared RTL spillover to number",
          severity := 2,
          atText := some [' ', '4', '2'],
          precededByText := some ['f', 'o', 'o'],
          followedByText := none }])) := by
  constructor
  · exact C2_spillover_machine.1 spilloverInit false true ['f', 'o', 'o'] (by decide)
  · have h := C2_spillover_machine.2 { candidate := some ['f', 'o', 'o'], textNodes := [] }
      ['f', 'o', 'o'] [' ', '4', '2'] false false ⟨[' ', '4', '2'], 0⟩ rfl (by decide)
    simpa using h

/-! ## Claim C3: declared-directionality latch -/

/-- A declared context propagates to every position below. -/
theorem walkerCtxGo_declared :
    ∀ (q : List Nat) (n : DomNode) (r : Bool) (r' d' : Bool),
      walkerCtxGo n (r, true) q = some (r', d') → d' = true := by
  intro q
  induction q with
  | nil =>
    intro n r r' d' h
    simp only [walkerCtxGo, Option.some.injEq, Prod.mk.injEq] at h
    exact h.2.symm
  | cons i p ih =>
    intro n r r' d' h
    cases n with
    | textNode s => simp [walkerCtxGo] at h
    | element dirAttr isRtl isBlock disp children =>
      simp only [walkerCtxGo] at h
      split at h
      next cDirAttr cRtl cBlock cDisp cChildren heq =>
        split at h
        · rw [Bool.true_or, Bool.true_or] at h
          exact ih _ _ _ _ h
        · exact absurd h (by simp)
      next data heq =>
        split at h
        · simp only [Option.some.injEq, Prod.mk.injEq] at h
          exact h.2.symm
        · exact absurd h (by simp)
      next heq => exact absurd h (by simp)

/-- Unfolding `walkerCtxGo` when the path descends into a displayable
element child. -/
theorem walkerCtxGo_cons_elem {dA rtl blk dsp : Bool} {children : List DomNode}
    {i : Nat} {a b cblk : Bool} {cc : List DomNode} {cr cd : Bool} {p : List Nat}
    (heq : children[i]? = some (.element a b cblk true cc)) :
    walkerCtxGo (.element dA rtl blk dsp children) (cr, cd) (i :: p) =
      walkerCtxGo (.element a b cblk true cc)
        (b, cd || (b != cr) || DomNode.declaresDir false (.element a b cblk true cc)) p := by
  simp [walkerCtxGo, heq]

/-- Unfolding `walkerCtxGo` when the path descends into a skipped
(non-displayable) element child. -/
theorem walkerCtxGo_cons_elem_skip {dA rtl blk dsp : Bool}
    {children : List DomNode} {i : Nat} {a b cblk : Bool} {cc : List DomNode}
    {cr cd : Bool} {p : List Nat}
    (heq : children[i]? = some (.element a b cblk false cc)) :
    walkerCtxGo (.element dA rtl blk dsp children) (cr, cd) (i :: p) = none := by
  simp [walkerCtxGo, heq]

/-- Unfolding `walkerCtxGo` when the path descends into a text child. -/
theorem walkerCtxGo_cons_text {dA rtl blk dsp : Bool} {children : List DomNode}
    {i : Nat} {s : List Char} {cr cd : Bool} {p : List Nat}
    (heq : children[i]? = some (.textNode s)) :
    walkerCtxGo (.element dA rtl blk dsp children) (cr, cd) (i :: p) =
      if p = [] then some (cr, cd) else none := by
  simp [walkerCtxGo, heq]

/-- Unfolding `walkerCtxGo` when the path leaves the tree. -/
theorem walkerCtxGo_cons_none {dA rtl blk dsp : Bool} {children : List DomNode}
    {i : Nat} {cr cd : Bool} {p : List Nat}
    (heq : children[i]? = none) :
    walkerCtxGo (.element dA rtl blk dsp children) (cr, cd) (i :: p) = none := by
  simp [walkerCtxGo, heq]

/-- Along one path, the contexts seen by a prefix and by its extension are
computed by the same descent; a declared prefix forces a declared
extension. -/
theorem walkerCtxGo_mono :
    ∀ (p : List Nat) (n : DomNode) (ctx : Bool × Bool) (q : List Nat)
      (r r' d' : Bool),
      walkerCtxGo n ctx p = some (r, true) →
      walkerCtxGo n ctx (p ++ q) = some (r', d') → d' = true := by
  intro p
  induction p with
  | nil =>
    intro n ctx q r r' d' h1 h2
    simp only [walkerCtxGo, Option.some.injEq] at h1
    subst h1
    exact walkerCtxGo_declared q n r r' d' (by simpa using h2)
  | cons i p ih =>
    intro n ctx q r r' d' h1 h2
    cases n with
    | textNode s => simp [walkerCtxGo] at h1
    | element dirAttr isRtl isBlock disp children =>
      obtain ⟨cr, cd⟩ := ctx
      rw [List.cons_append] at h2
      cases hcl : children[i]? with
      | none =>
        rw [walkerCtxGo_cons_none hcl] at h1
        exact absurd h1 (by simp)
      | some child =>
        cases child with
        | element a b cblk cdisp cc =>
          cases cdisp with
          | false =>
            rw [walkerCtxGo_cons_elem_skip hcl] at h1
            exact absurd h1 (by simp)
          | true =>
            rw [walkerCtxGo_cons_elem hcl] at h1
            rw [walkerCtxGo_cons_elem hcl] at h2
            exact ih _ _ _ _ _ _ h1 h2
        | textNode s =>
          rw [walkerCtxGo_cons_text hcl] at h1
          rw [walkerCtxGo_cons_text hcl] at h2
          split at h1
          next hp =>
            subst hp
            split at h2
            next hq =>
              simp only [Option.some.injEq, Prod.mk.injEq] at h1 h2
              rw [← h2.2]
              exact h1.2
            next hq => exact absurd h2 (by simp)
          next hp => exact absurd h1 (by simp)

/-- C3: once the walker's `isDeclared` state is true at a position, it is
true at every deeper position on the same path, and the root element is
never attributed declared status (in particular not by its own `dir`
attribute). -/
theorem C3_declared_latch :
    (∀ (root : DomNode) (p q : List Nat) (r r' d' : Bool),
      walkerCtxAt root p = some (r, true) →
      walkerCtxAt root (p ++ q) = some (r', d') → d' = true) ∧
    (∀ (root : DomNode) (r d : Bool),
      walkerCtxAt root [] = some (r, d) → d = false) := by
  constructor
  · intro root p q r r' d' h1 h2
    unfold walkerCtxAt at h1 h2
    split at h1
    next hdisp =>
      rw [if_pos hdisp] at h2
      exact walkerCtxGo_mono p root _ q r r' d' h1 h2
    next hdisp => exact absurd h1 (by simp)
  · intro root r d h
    unfold walkerCtxAt at h
    split at h
    · simp only [walkerCtxGo, Option.some.injEq, Prod.mk.injEq] at h
      exact h.2.symm
    · exact absurd h (by simp)

/-- Witness for C3: a declared inline element inside an undeclared root;
the latch holds at its text child. -/
theorem C3_declared_latch_witness :
    walkerCtxAt
        (.element false false true true
          [.element true false false true [.textNode ['x']]]) [0] =
      some (false, true) ∧
    walkerCtxAt
        (.element false false true true
          [.element true false false true [.textNode ['x']]]) [0, 0] =
      some (false, true) ∧
    (true : Bool) = true := by
  refine ⟨rfl, rfl, ?_⟩
  exact C3_declared_latch.1
    (.element false false true true
      [.element true false false true [.textNode ['x']]])
    [0] [0] false false true rfl rfl

/-! ## Claim C1: the undeclared-text detector -/

/-- The error the claim describes for one matched run: severity 4 in a
declared-directionality context; otherwise 2 exactly when a visible neutral
run immediately precedes or follows the match (severity 3 otherwise); any
adjacent visible neutral run attached as `precededByText`/`followedByText`. -/
def claimUndeclaredError (chunk : DirChunk) (m : Substr) (message : String) : BError :=
  { type := message,
    severity :=
      if chunk.isDeclared then 4
      else if (findVisibleNeutralTextBeforeIndex chunk.getText m.index).isSome ∨
          (findVisibleNeutralTextAtIndex chunk.getText (m.index + m.text.length)).isSome then 2
      else 3,
    atText := some m.text,
    precededByText :=
      (findVisibleNeutralTextBeforeIndex chunk.getText m.index).map Substr.text,
    followedByText :=
      (findVisibleNeutralTextAtIndex chunk.getText
        (m.index + m.text.length)).map Substr.text }

theorem undeclaredTextError_eq (chunk : DirChunk) (m : Substr) (message : String) :
    undeclaredTextError chunk m message = claimUndeclaredError chunk m message := by
  unfold undeclaredTextError addAdjacentNeutrals claimUndeclaredError
  cases hb : findVisibleNeutralTextBeforeIndex chunk.getText m.index <;>
    cases ha : findVisibleNeutralTextAtIndex chunk.getText (m.index + m.text.length) <;>
      cases hd : chunk.isDeclared <;>
        simp [hb, ha, hd]

/-- C1: for a sealed chunk in an RTL context, one `Undeclared LTR text`
error is emitted per classifier LTR run that is not solely LRMs and
neutrals (symmetrically `Undeclared RTL text` for LTR chunks, filtering
RLM-and-neutral-only matches, revision 2 additionally matching fake-RTL
runs); each error carries severity 4 in a declared-directionality context,
else 2 exactly when a visible neutral run is adjacent to the match and 3
otherwise, with the adjacent neutral runs attached. -/
theorem C1_undeclared_text (revision : Nat) (chunk : DirChunk) :
    handleChunk revision chunk =
      if chunk.isRtl then
        ((findLtrSubstrings chunk.getText).filter fun m => !hasOnlyLrmChars m.text).map
          fun m => claimUndeclaredError chunk m "Undeclared LTR text"
      else
        ((if 2 ≤ revision then findRtlAndFakeRtlSubstrings chunk.getText
          else findRtlSubstrings chunk.getText).filter
            fun m => !hasOnlyRlmChars m.text).map
          fun m => claimUndeclaredError chunk m "Undeclared RTL text" := by
  unfold handleChunk
  cases chunk.isRtl <;>
    simp only [if_true, if_false, Bool.false_eq_true, List.map_inj_left] <;>
      intro m _ <;> exact undeclaredTextError_eq chunk m _

/-! ## Claim C5: shape of the classifier's runs -/

theorem runBody_getLast {strong excl : Char → Bool} {rest : List Char} {x : Char}
    (h : (runBody strong excl rest).getLast? = some x) : strong x = true := by
  unfold runBody at h
  rw [List.getLast?_eq_head?_reverse, List.reverse_reverse] at h
  have hp := List.head?_dropWhile_not (fun d => !strong d)
    ((rest.takeWhile fun d => !excl d).reverse)
  rw [h] at hp
  simpa using hp

theorem runBody_mem {strong excl : Char → Bool} {rest : List Char} {x : Char}
    (h : x ∈ runBody strong excl rest) : excl x = false := by
  unfold runBody at h
  rw [List.mem_reverse] at h
  have hx := (List.dropWhile_sublist (fun d => !strong d)
    (l := (rest.takeWhile fun d => !excl d).reverse)).subset h
  rw [List.mem_reverse] at hx
  have := List.mem_takeWhile_imp hx
  simpa using this

/-- Every match of the run scanner starts and ends with a strong character,
and every character in it is strong or outside the excluded class. -/
theorem findRunsAux_mem {strong excl : Char → Bool} :
    ∀ (n : Nat) (l : List Char), l.length ≤ n → ∀ (i : Nat) (m : Substr),
      m ∈ findRunsAux strong excl l i →
      (∃ c t, m.text = c :: t ∧ strong c = true) ∧
      (∀ x, m.text.getLast? = some x → strong x = true) ∧
      (∀ x ∈ m.text, strong x = true ∨ excl x = false) := by
  intro n
  induction n with
  | zero =>
    intro l hl i m hm
    have : l = [] := by cases l with
      | nil => rfl
      | cons a t => simp at hl
    subst this
    simp [findRunsAux] at hm
  | succ n ih =>
    intro l hl i m hm
    cases l with
    | nil => simp [findRunsAux] at hm
    | cons c rest =>
      simp only [findRunsAux] at hm
      split at hm
      next hstrong =>
        simp only [List.mem_cons] at hm
        rcases hm with rfl | hm
        · refine ⟨⟨c, _, rfl, hstrong⟩, ?_, ?_⟩
          · intro x hx
            cases hbody : runBody strong excl rest with
            | nil =>
              rw [hbody] at hx
              simp only [List.getLast?_singleton, Option.some.injEq] at hx
              subst hx
              exact hstrong
            | cons b bt =>
              rw [hbody, List.getLast?_cons_cons, ← hbody] at hx
              exact runBody_getLast hx
          · intro x hx
            rcases List.mem_cons.mp hx with rfl | hx
            · exact Or.inl hstrong
            · exact Or.inr (runBody_mem hx)
        · refine ih _ ?_ _ _ hm
          simp only [List.length_cons] at hl
          have := List.length_drop (runBody strong excl rest).length rest
          omega
      next hstrong =>
        refine ih _ ?_ _ _ hm
        simp only [List.length_cons] at hl
        omega

theorem fakeUnitAt_head {l u rest : List Char}
    (h : fakeUnitAt l = some (u, rest)) : ∃ t, u = rloChar :: t := by
  cases l with
  | nil => simp [fakeUnitAt] at h
  | cons c l =>
    simp only [fakeUnitAt] at h
    split at h
    next hc =>
      rw [Option.map_eq_some'] at h
      obtain ⟨⟨u1, rest1⟩, _, heq⟩ := h
      simp only [Prod.mk.injEq] at heq
      exact ⟨u1, by rw [← heq.1, hc]⟩
    · simp at h

theorem fakeChain_head {l m rest : List Char}
    (h : fakeChain l = some (m, rest)) : ∃ t, m = rloChar :: t := by
  rw [fakeChain] at h
  split at h
  · simp at h
  next u rest1 hu =>
    obtain ⟨t, rfl⟩ := fakeUnitAt_head hu
    split at h <;>
      · simp only [Option.some.injEq, Prod.mk.injEq] at h
        exact ⟨_, h.1.symm⟩

/-- Every match of the combined scanner begins with an RTL character or an
RLO. -/
theorem findRtlAndFakeAux_mem :
    ∀ (n : Nat) (l : List Char), l.length ≤ n → ∀ (i : Nat) (m : Substr),
      m ∈ findRtlAndFakeAux l i →
      ∃ c t, m.text = c :: t ∧ (isRtlChar c = true ∨ c = rloChar) := by
  intro n
  induction n with
  | zero =>
    intro l hl i m hm
    have : l = [] := by cases l with
      | nil => rfl
      | cons a t => simp at hl
    subst this
    simp [findRtlAndFakeAux] at hm
  | succ n ih =>
    intro l hl i m hm
    cases l with
    | nil => simp [findRtlAndFakeAux] at hm
    | cons c rest =>
      simp only [List.length_cons] at hl
      by_cases hc : isRtlChar c = true
      · rw [findRtlAndFakeAux_cons_rtl hc] at hm
        rcases List.mem_cons.mp hm with rfl | hm
        · exact ⟨c, _, rfl, Or.inl hc⟩
        · refine ih _ ?_ _ _ hm
          have := List.length_drop
            (runBody isRtlChar (fun d => isLtrChar d || isBidiControlChar d) rest).length rest
          omega
      · rw [Bool.not_eq_true] at hc
        cases hfc : fakeChain (c :: rest) with
        | some p =>
          obtain ⟨mt, rest2⟩ := p
          rw [findRtlAndFakeAux_cons_fake hc hfc] at hm
          rcases List.mem_cons.mp hm with rfl | hm
          · obtain ⟨t, ht⟩ := fakeChain_head hfc
            exact ⟨rloChar, t, ht, Or.inr rfl⟩
          · refine ih _ ?_ _ _ hm
            have := fakeChain_rest_lt hfc
            simp only [List.length_cons] at this
            omega
        | none =>
          rw [findRtlAndFakeAux_cons_other hc hfc] at hm
          exact ih _ (by omega) _ _ hm

/-- Stripping the neutral suffix of a list holding a non-neutral character
leaves a non-empty list ending in a non-neutral character. -/
theorem stripFinalNeutrals_prop {t : List Char} {c : Char} {tl : List Char}
    (h : t = c :: tl) (hc : isNeutralChar c = false) :
    stripFinalNeutrals t ≠ [] ∧
    ∀ x, (stripFinalNeutrals t).getLast? = some x → isNeutralChar x = false := by
  constructor
  · intro hnil
    unfold stripFinalNeutrals at hnil
    rw [List.reverse_eq_nil_iff, List.dropWhile_eq_nil_iff] at hnil
    have : c ∈ t.reverse := by rw [List.mem_reverse, h]; simp
    have := hnil c this
    rw [hc] at this
    exact Bool.false_ne_true this
  · intro x hx
    unfold stripFinalNeutrals at hx
    rw [List.getLast?_eq_head?_reverse, List.reverse_reverse] at hx
    have hp := List.head?_dropWhile_not isNeutralChar t.reverse
    rw [hx] at hp
    exact hp

/-- C5: every LTR run reported by the classifier starts and ends with a
strong LTR character and contains no strong RTL character (symmetrically
for RTL runs); a lone strong character is a valid length-1 run; and every
match reported by `findRtlAndFakeRtlSubstrings` has its trailing neutral
characters stripped (it is non-empty and does not end in a neutral). -/
theorem C5_classifier_run_shape :
    (∀ (s : List Char) (m : Substr), m ∈ findLtrSubstrings s →
      (∃ c, m.text.head? = some c ∧ isLtrChar c = true) ∧
      (∀ x, m.text.getLast? = some x → isLtrChar x = true) ∧
      (∀ x ∈ m.text, isRtlChar x = false)) ∧
    (∀ (s : List Char) (m : Substr), m ∈ findRtlSubstrings s →
      (∃ c, m.text.head? = some c ∧ isRtlChar c = true) ∧
      (∀ x, m.text.getLast? = some x → isRtlChar x = true) ∧
      (∀ x ∈ m.text, isLtrChar x = false)) ∧
    (∀ c : Char, isLtrChar c = true → findLtrSubstrings [c] = [⟨[c], 0⟩]) ∧
    (∀ c : Char, isRtlChar c = true → findRtlSubstrings [c] = [⟨[c], 0⟩]) ∧
    (∀ (s : List Char) (m : Substr), m ∈ findRtlAndFakeRtlSubstrings s →
      m.text ≠ [] ∧
      ∀ x, m.text.getLast? = some x → isNeutralChar x = false) := by
  refine ⟨?_, ?_, ?_, ?_, ?_⟩
  · intro s m hm
    have hm2 : m ∈ findLtrRunsRaw s := (List.mem_filter.mp hm).1
    obtain ⟨⟨c, t, ht, hc⟩, hlast, hall⟩ :=
      findRunsAux_mem s.length s (Nat.le_refl _) 0 m hm2
    refine ⟨⟨c, by rw [ht]; rfl, hc⟩, hlast, ?_⟩
    intro x hx
    rcases hall x hx with hs | he
    · exact ltr_not_rtl hs
    · simp only [Bool.or_eq_false_iff] at he
      exact he.1
  · intro s m hm
    obtain ⟨⟨c, t, ht, hc⟩, hlast, hall⟩ :=
      findRunsAux_mem s.length s (Nat.le_refl _) 0 m hm
    refine ⟨⟨c, by rw [ht]; rfl, hc⟩, hlast, ?_⟩
    intro x hx
    rcases hall x hx with hs | he
    · exact rtl_not_ltr hs
    · simp only [Bool.or_eq_false_iff] at he
      exact he.1
  · intro c hc
    unfold findLtrSubstrings findLtrRunsRaw
    rw [findRunsAux]
    simp [hc, runBody, findRunsAux, isFakeRtlContext]
  · intro c hc
    unfold findRtlSubstrings
    rw [findRunsAux]
    simp [hc, runBody, findRunsAux]
  · intro s m hm
    unfold findRtlAndFakeRtlSubstrings at hm
    rw [List.mem_map] at hm
    obtain ⟨m0, hm0, rfl⟩ := hm
    obtain ⟨c, t, ht, hct⟩ :=
      findRtlAndFakeAux_mem s.length s (Nat.le_refl _) 0 m0 hm0
    have hcn : isNeutralChar c = false := by
      rcases hct with hrtl | rfl
      · exact rtl_not_neutral hrtl
      · decide
    exact stripFinalNeutrals_prop ht hcn

/-- Witness for C5: a lone LTR character is reported as a length-1 run. -/
theorem C5_classifier_run_shape_witness :
    findLtrSubstrings ['a'] = [⟨['a'], 0⟩] :=
  C5_classifier_run_shape.2.2.1 'a' (by decide)

/-! ## Claim C9: undeclared-field severities -/

/-- The general-case severity rule as the claim states it: severity 4 when
the element or its parent explicitly sets a direction differing from the
element's actual computed direction. -/
def claimFieldSeverity (el : FieldElement) (value : List Char)
    (fieldType : FieldType) : Nat :=
  if fieldType = .inputValue ∨ fieldType = .textareaValue then 1
  else if (match el.dirAttrVal with
           | some d => d != el.computedRtl
           | none => false) ||
      (match el.styleDirectionVal with
       | some d => d != el.computedRtl
       | none => false) ||
      (match el.parentDirAttrVal with
       | some d => d != el.computedRtl
       | none => false) then 4
  else if (findVisibleNeutralTextAtIndex value 0).isSome ||
      (findVisibleNeutralTextBeforeIndex value value.length).isSome then 2
  else 3

/-- The general-case severity rule as the code has it (the claim as
amended): severity 4 when the element has a `dir` attribute or an inline
`style.direction`, or its computed direction differs from its parent's
computed direction, irrespective of the declared values. -/
def amendedFieldSeverity (el : FieldElement) (value : List Char)
    (fieldType : FieldType) : Nat :=
  if fieldType = .inputValue ∨ fieldType = .textareaValue then 1
  else if el.dirAttrVal.isSome || el.styleDirectionVal.isSome ||
      (el.computedRtl != el.parentComputedRtl) then 4
  else if (findVisibleNeutralTextAtIndex value 0).isSome ||
      (findVisibleNeutralTextBeforeIndex value value.length).isSome then 2
  else 3

/-- An image element whose `dir` attribute agrees with its computed
direction: the claim's rule and the code disagree on it. -/
def c9Element : FieldElement :=
  { nodeName := "IMG", typ := "", alt := ['a'], dirAttrVal := some true,
    computedRtl := true, parentComputedRtl := true }

theorem evalFindLtr_a : findLtrSubstrings ['a'] = [⟨['a'], 0⟩] := by
  unfold findLtrSubstrings findLtrRunsRaw
  rw [findRunsAux]
  simp [(by decide : isLtrChar 'a' = true), runBody, findRunsAux, isFakeRtlContext]

theorem evalFindFake_a : findRtlAndFakeRtlSubstrings ['a'] = [] := by
  unfold findRtlAndFakeRtlSubstrings
  rw [findRtlAndFakeAux_cons_other (by decide) (fakeChain_none (by decide))]
  simp [findRtlAndFakeAux]

/-- C9 counterexample: for an image whose `dir` attribute agrees with its
computed direction (and whose parent computes the same direction), the code
emits the error at severity 4, while the claim's rule (no explicit
direction differing from the computed one, no adjacent visible neutrals)
prescribes severity 3. -/
theorem C9_severity_counterexample :
    checkElement c9Element =
      [{ type := "Undeclared LTR alt text", severity := 4, atText := some ['a'] }] ∧
    claimFieldSeverity c9Element ['a'] .altText = 3 := by
  constructor
  · unfold checkElement c9Element checkField
    simp [evalFindLtr_a, evalFindFake_a, getErrorSeverity, fieldTypeName]
  · decide

/-- C9 as amended: a file input's check ignores its value entirely; an RTL
file input (with no title attribute) yields exactly the severity-2
`File input not LTR` error; and for the other checked fields the severity is
1 for textarea and text/search input values, else 4 when the element has a
`dir` attribute or inline direction style or its computed direction differs
from its parent's, else 2 on a leading or trailing visible-neutral run,
else 3. -/
theorem C9_field_severities_amended :
    (∀ (el : FieldElement) (v : List Char), el.nodeName = "INPUT" →
      el.typ = "file" → checkElement { el with value := v } = checkElement el) ∧
    (∀ el : FieldElement, el.nodeName = "INPUT" → el.typ = "file" →
      el.computedRtl = true → el.title = [] →
      checkElement el = [{ type := "File input not LTR", severity := 2 }]) ∧
    (∀ (el : FieldElement) (value : List Char) (ft : FieldType),
      getErrorSeverity el value ft = amendedFieldSeverity el value ft) := by
  refine ⟨?_, ?_, ?_⟩
  · intro el v h1 h2
    unfold checkElement
    simp only [h1, h2]
    rfl
  · intro el h1 h2 h3 h4
    unfold checkElement
    simp [h1, h2, h3, h4, checkFileInput]
  · intro el value ft
    rfl

/-- Witness for C9's amended claim at a concrete file input. -/
theorem C9_field_severities_amended_witness :
    checkElement
        { nodeName := "INPUT", typ := "file", computedRtl := true } =
      [{ type := "File input not LTR", severity := 2 }] :=
  C9_field_severities_amended.2.1
    { nodeName := "INPUT", typ := "file", computedRtl := true } rfl rfl rfl rfl

/-! ## Claim C10: anchoring of data-constructed regexp filters -/

theorem splitsOf_mem {s : List Char} :
    ∀ {a b : List Char}, (a, b) ∈ splitsOf s ↔ a ++ b = s := by
  induction s with
  | nil =>
    intro a b
    simp [splitsOf, List.append_eq_nil]
  | cons c t ih =>
    intro a b
    simp only [splitsOf, List.mem_cons, List.mem_map, Prod.mk.injEq]
    constructor
    · rintro (⟨rfl, rfl⟩ | ⟨⟨a1, b1⟩, hmem, rfl, rfl⟩)
      · rfl
      · simp only [List.cons_append, List.cons.injEq, true_and]
        exact ih.mp hmem
    · intro h
      cases a with
      | nil => left; exact ⟨rfl, by simpa using h⟩
      | cons c1 a1 =>
        right
        simp only [List.cons_append, List.cons.injEq] at h
        exact ⟨(a1, b), ih.mpr h.2, by rw [h.1], rfl⟩

/-- `test` of a both-ends-anchored compiled regexp is whole-string match. -/
theorem anchoredTest_eq (p : Reg) (s : List Char) :
    regExpTest (mkAnchoredRegExp p) s = rmatch p s := by
  unfold regExpTest mkAnchoredRegExp
  rw [Bool.eq_iff_iff]
  simp only [List.any_eq_true, Bool.not_true, Bool.false_or, Bool.and_eq_true,
    List.isEmpty_iff]
  constructor
  · rintro ⟨⟨pre, rest⟩, hpr, ⟨mid, suf⟩, hms, ⟨hpre, hsuf⟩, hm⟩
    simp only at hpre hsuf hm
    subst hpre hsuf
    have h1 := splitsOf_mem.mp hpr
    have h2 := splitsOf_mem.mp hms
    simp only [List.nil_append, List.append_nil] at h1 h2
    rw [← h1, ← h2]
    exact hm
  · intro hm
    exact ⟨([], s), splitsOf_mem.mpr rfl, (s, []), splitsOf_mem.mpr (by simp),
      ⟨rfl, rfl⟩, hm⟩

/-- C10: every regexp field read from a bare filter definition compiles
anchored at both ends, so each regexp filter suppresses an error exactly
when the pattern matches the entire corresponding field value
(for location filters, an entire `id` attribute or class name in the
ancestry); and the literal and regexp text filters treat a null field as
the empty string, so empty-pattern and empty-string filters match errors
whose field is null. -/
theorem C10_regexp_filter_anchoring :
    (∀ (fields : List (String × JsVal)) (opcode field : String) (re : JsRegExp),
      getRegexpParamF fields opcode field = Except.ok re →
      re.anchoredStart = true ∧ re.anchoredEnd = true ∧
      ∀ s : List Char, regExpTest re s = rmatch re.source s) ∧
    (∀ (p : Reg) (e : BError) (locs : List LocationElement),
      isSuppressed (.atTextRegexpF (mkAnchoredRegExp p)) e locs =
        rmatch p (e.atText.getD []) ∧
      isSuppressed (.precededByTextRegexpF (mkAnchoredRegExp p)) e locs =
        rmatch p (e.precededByText.getD []) ∧
      isSuppressed (.followedByTextRegexpF (mkAnchoredRegExp p)) e locs =
        rmatch p (e.followedByText.getD []) ∧
      isSuppressed (.locationIdRegexpF (mkAnchoredRegExp p)) e locs =
        locs.any (fun le => le.selfAndAncestors.any fun a =>
          a.id ≠ "" && rmatch p a.id.data) ∧
      isSuppressed (.locationClassRegexpF (mkAnchoredRegExp p)) e locs =
        locs.any (fun le => le.selfAndAncestors.any fun a =>
          a.className ≠ "" &&
            (splitWhitespace a.className.data).any fun cn => rmatch p cn)) ∧
    (∀ (e : BError) (locs : List LocationElement),
      e.atText = none → e.precededByText = none → e.followedByText = none →
      isSuppressed (.atTextF "") e locs = true ∧
      isSuppressed (.precededByTextF "") e locs = true ∧
      isSuppressed (.followedByTextF "") e locs = true ∧
      isSuppressed (.atTextRegexpF (mkAnchoredRegExp .eps)) e locs = true ∧
      isSuppressed (.precededByTextRegexpF (mkAnchoredRegExp .eps)) e locs = true ∧
      isSuppressed (.followedByTextRegexpF (mkAnchoredRegExp .eps)) e locs = true) := by
  refine ⟨?_, ?_, ?_⟩
  · intro fields opcode field re h
    unfold getRegexpParamF at h
    split at h
    · exact absurd h (by simp)
    · simp only [Except.ok.injEq] at h
      subst h
      exact ⟨rfl, rfl, fun s => anchoredTest_eq _ s⟩
    · simp only [Except.ok.injEq] at h
      subst h
      exact ⟨rfl, rfl, fun s => anchoredTest_eq _ s⟩
    · exact absurd h (by simp)
  · intro p e locs
    refine ⟨?_, ?_, ?_, ?_, ?_⟩ <;>
      simp only [isSuppressed, anchoredTest_eq]
  · intro e locs h1 h2 h3
    simp [isSuppressed, h1, h2, h3, anchoredTest_eq, rmatch, Reg.nullable]

/-- Witness for C10's null-field behaviour at a concrete error. -/
theorem C10_regexp_filter_anchoring_witness :
    isSuppressed (.atTextF "") { type := "T", severity := 3 } [] = true ∧
    isSuppressed (.atTextRegexpF (mkAnchoredRegExp .eps))
        { type := "T", severity := 3 } [] = true :=
  ⟨(C10_regexp_filter_anchoring.2.2 { type := "T", severity := 3 } [] rfl rfl rfl).1,
   (C10_regexp_filter_anchoring.2.2 { type := "T", severity := 3 } [] rfl rfl rfl).2.2.2.1⟩

/-! ## Claim C6: raises-iff contract of a scan -/

theorem isOk_map {ε α β : Type} (f : α → β) (x : Except ε α) :
    (x.map f).isOk = x.isOk := by
  cases x <;> rfl

theorem isOk_pair_bind {ε α β γ : Type} (x : Except ε α) (y : Except ε β)
    (k : α → β → γ) :
    (Except.isOk (do let a ← x; let b ← y; pure (k a b))) = (x.isOk && y.isOk) := by
  cases x <;> cases y <;> rfl

theorem isOk_getStringParam (fields : List (String × JsVal)) (opcode field : String) :
    (getStringParam fields opcode field).isOk = wellFormedString fields field := by
  unfold getStringParam wellFormedString
  cases h : lookupField fields field with
  | none => rfl
  | some v => cases v <;> rfl

theorem isOk_getNumberParam (fields : List (String × JsVal)) (opcode field : String) :
    (getNumberParam fields opcode field).isOk = wellFormedNumber fields field := by
  unfold getNumberParam wellFormedNumber
  cases h : lookupField fields field with
  | none => rfl
  | some v => cases v <;> rfl

theorem isOk_getRegexpParamF (fields : List (String × JsVal)) (opcode field : String) :
    (getRegexpParamF fields opcode field).isOk = wellFormedRegexp fields field := by
  unfold getRegexpParamF wellFormedRegexp
  cases h : lookupField fields field with
  | none => rfl
  | some v => cases v <;> rfl

/-- In normal (non-throwing) mode the collector never throws and accepts
exactly the unsuppressed errors. -/
theorem collectorAddAll_noThrow (filters : List BFilter) :
    ∀ (findings : List Finding) (errs : List BError),
      collectorAddAll filters false findings errs =
        (pureCollect filters findings errs, none)
  | [], errs => rfl
  | f :: rest, errs => by
    by_cases h : (filters.all fun flt => !isSuppressed flt f.error f.locationElements) = true
    · simp only [collectorAddAll, collectorAdd, h, if_true, pureCollect]
      exact collectorAddAll_noThrow filters rest (errs ++ [f.error])
    · simp only [collectorAddAll, collectorAdd, h, if_false, pureCollect,
        Bool.false_eq_true]
      exact collectorAddAll_noThrow filters rest errs

mutual

/-- A normal scan of a frame never throws and returns the claim-side error
list. -/
theorem scanFrame_noThrow (filters : List BFilter) :
    ∀ (t : FrameTree) (errs : List BError),
      scanFrame filters false t errs = (pureScanFrame filters t errs, none)
  | .frame acc findings children, errs => by
    rw [scanFrame, pureScanFrame, collectorAddAll_noThrow]
    exact scanChildren_noThrow filters children (pureCollect filters findings errs)

/-- A normal scan of a frame list never throws: inaccessible frames are
skipped and exceptions are confined by the catch block. -/
theorem scanChildren_noThrow (filters : List BFilter) :
    ∀ (l : List FrameTree) (errs : List BError),
      scanChildren filters false l errs = (pureScanChildren filters l errs, none)
  | [], _ => by rw [scanChildren, pureScanChildren]
  | .frame acc findings children :: rest, errs => by
    rw [scanChildren, pureScanChildren]
    cases acc
    · exact scanChildren_noThrow filters rest errs
    · rw [scanFrame_noThrow filters (.frame true findings children) errs]
      exact scanChildren_noThrow filters rest
        (pureScanFrame filters (.frame true findings children) errs)

end

/-- In throw-on-error mode the collector throws exactly at the first
unsuppressed finding, and the thrown value is that finding's error. -/
theorem collectorAddAll_throwFirst (filters : List BFilter) :
    ∀ (findings : List Finding) (errs : List BError),
      (collectorAddAll filters true findings errs).2 =
        Option.map Finding.error
          (findings.find? fun f =>
            filters.all fun flt => !isSuppressed flt f.error f.locationElements)
  | [], errs => rfl
  | f :: rest, errs => by
    by_cases h : (filters.all fun flt => !isSuppressed flt f.error f.locationElements) = true
    · simp only [collectorAddAll, collectorAdd, h, if_true, List.find?_cons]
      rfl
    · simp only [collectorAddAll, collectorAdd, h, if_false, Bool.false_eq_true,
        List.find?_cons]
      exact collectorAddAll_throwFirst filters rest errs

theorem wellFormedParam_none {fields : List (String × JsVal)} {field : String}
    (h : lookupField fields field = none) :
    wellFormedParam fields field = false := by
  rw [wellFormedParam]
  split
  · next f h2 => rw [h] at h2; simp at h2
  · next sf h2 => rw [h] at h2; simp at h2
  · rfl

theorem wellFormedParam_other {fields : List (String × JsVal)} {field : String}
    {v : JsVal} (h : lookupField fields field = some v)
    (hb : ∀ f, v ≠ .builtFilter f) (ho : ∀ sf, v ≠ .obj sf) :
    wellFormedParam fields field = false := by
  rw [wellFormedParam]
  split
  · next f h2 => rw [h] at h2; simp only [Option.some.injEq] at h2; exact absurd h2 (hb f)
  · next sf h2 => rw [h] at h2; simp only [Option.some.injEq] at h2; exact absurd h2 (ho sf)
  · rfl

theorem wellFormedParam_built {fields : List (String × JsVal)} {field : String}
    {f : BFilter} (h : lookupField fields field = some (.builtFilter f)) :
    wellFormedParam fields field = true := by
  rw [wellFormedParam]
  split
  · rfl
  · next sf h2 => rw [h] at h2; simp at h2
  · next h1 h2 => exact absurd h (h1 f)

theorem wellFormedParam_obj {fields : List (String × JsVal)} {field : String}
    {subFields : List (String × JsVal)}
    (h : lookupField fields field = some (.obj subFields)) :
    wellFormedParam fields field =
      (match lookupField subFields "opcode" with
       | some (.str _) => wellFormedFilterFields subFields
       | _ => false) := by
  rw [wellFormedParam]
  split
  · next f h2 => rw [h] at h2; simp at h2
  · next sf h2 =>
    rw [h] at h2
    simp only [Option.some.injEq, JsVal.obj.injEq] at h2
    rw [h2]
  · next h1 h2 => exact absurd h (h2 subFields)

/-- Filter construction succeeds exactly on well-formed definitions
(size-bounded form for the mutual recursion). -/
theorem constructFilter_wf_aux : ∀ n : Nat,
    (∀ (fields : List (String × JsVal)) (opcode field : String),
      sizeOf fields ≤ n →
      (constructFilterParam fields opcode field).isOk = wellFormedParam fields field) ∧
    (∀ fields : List (String × JsVal), sizeOf fields ≤ n →
      (constructFilterFields fields).isOk = wellFormedFilterFields fields) := by
  intro n
  induction n with
  | zero =>
    constructor
    · intro fields opcode field hle
      have hpos : 0 < sizeOf fields := by cases fields <;> simp_arith
      omega
    · intro fields hle
      have hpos : 0 < sizeOf fields := by cases fields <;> simp_arith
      omega
  | succ n ih =>
    have hP : ∀ (fields : List (String × JsVal)) (opcode field : String),
        sizeOf fields ≤ n + 1 →
        (constructFilterParam fields opcode field).isOk = wellFormedParam fields field := by
      intro fields opcode field hle
      rw [constructFilterParam]
      split
      · next hu => rw [wellFormedParam_none hu]; rfl
      · next s hu => rw [wellFormedParam_other hu (by simp) (by simp)]; rfl
      · next m hu => rw [wellFormedParam_other hu (by simp) (by simp)]; rfl
      · next b hu => rw [wellFormedParam_other hu (by simp) (by simp)]; rfl
      · next f hu => rw [wellFormedParam_built hu]; rfl
      · next subFields hu =>
        have hsz : sizeOf subFields ≤ n := by
          have := lookupField_sizeOf hu
          simp only [JsVal.obj.sizeOf_spec] at this
          omega
        rw [wellFormedParam_obj hu]
        split
        · exact ih.2 subFields hsz
        · rfl
      · next r hu => rw [wellFormedParam_other hu (by simp) (by simp)]; rfl
      · next hu => rw [wellFormedParam_other hu (by simp) (by simp)]; rfl
    refine ⟨hP, ?_⟩
    intro fields hv
    rw [constructFilterFields, wellFormedFilterFields]
    split
    · next opcode hop =>
      by_cases h1 : opcode = "AND"
      case pos =>
        subst h1
        rw [if_pos rfl, if_pos rfl, isOk_pair_bind,
          hP fields "AND" "filter1" hv, hP fields "AND" "filter2" hv]
      rw [if_neg h1, if_neg h1]
      by_cases h2 : opcode = "AT_TEXT"
      case pos =>
        subst h2
        rw [if_pos rfl, if_pos rfl, isOk_map, isOk_getStringParam]
      rw [if_neg h2, if_neg h2]
      by_cases h3 : opcode = "AT_TEXT_REGEXP"
      case pos =>
        subst h3
        rw [if_pos rfl, if_pos rfl, isOk_map, isOk_getRegexpParamF]
      rw [if_neg h3, if_neg h3]
      by_cases h4 : opcode = "FOLLOWED_BY_TEXT"
      case pos =>
        subst h4
        rw [if_pos rfl, if_pos rfl, isOk_map, isOk_getStringParam]
      rw [if_neg h4, if_neg h4]
      by_cases h5 : opcode = "FOLLOWED_BY_TEXT_REGEXP"
      case pos =>
        subst h5
        rw [if_pos rfl, if_pos rfl, isOk_map, isOk_getRegexpParamF]
      rw [if_neg h5, if_neg h5]
      by_cases h6 : opcode = "LOCATION_CLASS"
      case pos =>
        subst h6
        rw [if_pos rfl, if_pos rfl, isOk_map, isOk_getStringParam]
      rw [if_neg h6, if_neg h6]
      by_cases h7 : opcode = "LOCATION_CLASS_REGEXP"
      case pos =>
        subst h7
        rw [if_pos rfl, if_pos rfl, isOk_map, isOk_getRegexpParamF]
      rw [if_neg h7, if_neg h7]
      by_cases h8 : opcode = "LOCATION_ID"
      case pos =>
        subst h8
        rw [if_pos rfl, if_pos rfl, isOk_map, isOk_getStringParam]
      rw [if_neg h8, if_neg h8]
      by_cases h9 : opcode = "LOCATION_ID_REGEXP"
      case pos =>
        subst h9
        rw [if_pos rfl, if_pos rfl, isOk_map, isOk_getRegexpParamF]
      rw [if_neg h9, if_neg h9]
      by_cases h10 : opcode = "NOT"
      case pos =>
        subst h10
        rw [if_pos rfl, if_pos rfl, isOk_map, hP fields "NOT" "filter" hv]
      rw [if_neg h10, if_neg h10]
      by_cases h11 : opcode = "OR"
      case pos =>
        subst h11
        rw [if_pos rfl, if_pos rfl, isOk_pair_bind,
          hP fields "OR" "filter1" hv, hP fields "OR" "filter2" hv]
      rw [if_neg h11, if_neg h11]
      by_cases h12 : opcode = "PRECEDED_BY_TEXT"
      case pos =>
        subst h12
        rw [if_pos rfl, if_pos rfl, isOk_map, isOk_getStringParam]
      rw [if_neg h12, if_neg h12]
      by_cases h13 : opcode = "PRECEDED_BY_TEXT_REGEXP"
      case pos =>
        subst h13
        rw [if_pos rfl, if_pos rfl, isOk_map, isOk_getRegexpParamF]
      rw [if_neg h13, if_neg h13]
      by_cases h14 : opcode = "SEVERITY"
      case pos =>
        subst h14
        rw [if_pos rfl, if_pos rfl, isOk_map, isOk_getNumberParam]
      rw [if_neg h14, if_neg h14]
      by_cases h15 : opcode = "TYPE"
      case pos =>
        subst h15
        rw [if_pos rfl, if_pos rfl, isOk_map, isOk_getStringParam]
      rw [if_neg h15, if_neg h15]
      rfl
    · rfl

/-- C6: raises-iff contract of a scan.  A normal scan of any frame tree
returns the (possibly empty) error list without raising — cross-origin
frames are skipped and exceptions from the frame recursion are swallowed by
the catch block; filter construction from a bare definition fails exactly
on malformed definitions (unknown opcode, or a missing or wrongly-typed
required field, including subfilters); and in throw-on-error mode the
collector throws exactly upon adding the first unsuppressed error, the
thrown value carrying that error. -/
theorem C6_raises_iff_contract :
    (∀ (filters : List BFilter) (t : FrameTree) (errs : List BError),
      scanFrame filters false t errs = (pureScanFrame filters t errs, none)) ∧
    (∀ v : JsVal, (constructFilter v).isOk = wellFormedFilter v) ∧
    (∀ (filters : List BFilter) (findings : List Finding) (errs : List BError),
      (collectorAddAll filters true findings errs).2 =
        Option.map Finding.error
          (findings.find? fun f =>
            filters.all fun flt => !isSuppressed flt f.error f.locationElements)) := by
  refine ⟨fun filters t errs => scanFrame_noThrow filters t errs, ?_,
    fun filters findings errs => collectorAddAll_throwFirst filters findings errs⟩
  intro v
  cases v with
  | obj fields => exact (constructFilter_wf_aux (sizeOf fields)).2 fields (le_refl _)
  | str s => rfl
  | num m => rfl
  | boolVal b => rfl
  | regexp r => rfl
  | builtFilter f => rfl
  | nullVal => rfl

/-! ## Claim C4: chunk index monotonicity and floor lookup

`floorIndex`, `floorEntry` and `hlFromFloor` are stated from the spec's
words (the last index entry whose offset is at most the queried offset;
floor lookup at both ends of a substring) and compared with the embedded
lookup code. -/

/-- Claim side: index of the last entry with offset at most `q`. -/
def floorIndex (ps : List CharPositionNode) (q : Nat) : Nat :=
  (ps.takeWhile fun e => decide (e.charPos ≤ q)).length - 1

/-- Claim side: the last index entry whose offset is at most `q`. -/
def floorEntry (ps : List CharPositionNode) (q : Nat) : Option CharPositionNode :=
  (ps.takeWhile fun e => decide (e.charPos ≤ q)).getLast?

/-- Claim side: the highlightable area computed by floor lookup at both
ends of the substring. -/
def hlFromFloor (f : CharPositionNodeFinder) (startPos length : Nat) :
    HighlightableText :=
  let startIndex := floorIndex f.nodePositions startPos
  let endIndex := floorIndex f.nodePositions (startPos + length - 1)
  { nodes := ((f.nodePositions.drop startIndex).take (endIndex + 1 - startIndex)).map (·.node),
    startOffset := (startPos : Int) - (((f.nodePositions[startIndex]?).getD ⟨0, 0⟩).charPos : Int),
    endOffset := ((startPos + length : Nat) : Int) - (((f.nodePositions[endIndex]?).getD ⟨0, 0⟩).charPos : Int) }

/-- On a strictly increasing offset list, the binary-search floor
computation of `findNodeIndexAtPosition_` returns the number of offsets at
most the query, minus one. -/
theorem binarySearch_floor :
    ∀ (offs : List Nat), List.Pairwise (· < ·) offs → ∀ q : Nat,
      (if 0 ≤ binarySearch offs q then binarySearch offs q
       else -(binarySearch offs q) - 2) =
        ((offs.takeWhile fun o => decide (o ≤ q)).length : Int) - 1 := by
  intro offs
  induction offs with
  | nil =>
    intro _ q
    simp [binarySearch]
  | cons a t ih =>
    intro hp q
    have hpt : List.Pairwise (· < ·) t := hp.of_cons
    have hat : ∀ x ∈ t, a < x := fun x hx => List.rel_of_pairwise_cons hp hx
    by_cases haq : a = q
    · subst haq
      have h1 : (a :: t).findIdx? (fun o => o == a) = some 0 := by
        simp [List.findIdx?_cons]
      have h2 : t.takeWhile (fun o => decide (o ≤ a)) = [] := by
        cases t with
        | nil => rfl
        | cons b t2 =>
          have hab : a < b := hat b (by simp)
          simp [List.takeWhile_cons, Nat.not_le.mpr hab]
      simp [binarySearch, h1, List.takeWhile_cons, h2]
    · by_cases halt : a < q
      · have hne : (a == q) = false := by simp [haq]
        cases hft : t.findIdx? (fun o => o == q) with
        | some j =>
          have hbs : binarySearch (a :: t) q = (j : Int) + 1 := by
            simp [binarySearch, List.findIdx?_cons, hne, hft]
          have hbst : binarySearch t q = (j : Int) := by
            simp [binarySearch, hft]
          have iht := ih hpt q
          rw [hbst] at iht
          rw [if_pos (by omega)] at iht
          rw [hbs, if_pos (by omega)]
          rw [List.takeWhile_cons, if_pos (by simpa using Nat.le_of_lt halt)]
          simp only [List.length_cons]
          omega
        | none =>
          have hbs : binarySearch (a :: t) q =
              -(((a :: t).takeWhile fun o => decide (o < q)).length : Int) - 1 := by
            simp [binarySearch, List.findIdx?_cons, hne, hft]
          have hbst : binarySearch t q =
              -((t.takeWhile fun o => decide (o < q)).length : Int) - 1 := by
            simp [binarySearch, hft]
          have iht := ih hpt q
          rw [hbst] at iht
          rw [if_neg (by omega)] at iht
          rw [hbs, if_neg (by omega)]
          rw [List.takeWhile_cons, if_pos (by simpa using halt),
            List.takeWhile_cons, if_pos (by simpa using Nat.le_of_lt halt)]
          simp only [List.length_cons]
          rw [List.takeWhile_cons, if_pos (by simpa using halt)] at hbs
          simp only [List.length_cons] at hbs
          omega
      · have hqa : q < a := by omega
        have h1 : (a :: t).findIdx? (fun o => o == q) = none := by
          rw [List.findIdx?_eq_none_iff]
          intro x hx
          rcases List.mem_cons.mp hx with rfl | hxt
          · simp [haq]
          · have := hat x hxt
            simp only [beq_eq_false_iff_ne, ne_eq]
            omega
        have h2 : (a :: t).takeWhile (fun o => decide (o < q)) = [] := by
          simp [List.takeWhile_cons, Nat.not_lt.mpr (Nat.le_of_lt hqa)]
        have h3 : (a :: t).takeWhile (fun o => decide (o ≤ q)) = [] := by
          simp [List.takeWhile_cons, Nat.not_le.mpr hqa]
        rw [h3]
        have hbs : binarySearch (a :: t) q = -1 := by
          simp [binarySearch, h1, h2]
        rw [hbs]
        simp

/-- Invariant of chunks assembled by the walker: the index starts at
offset 0, its offsets strictly increase, and all offsets are below the
accumulated text length. -/
def chunkInv (ch : DirChunk) : Prop :=
  (offsetsOf ch.nodeFinder).head? = some 0 ∧
  List.Pairwise (· < ·) (offsetsOf ch.nodeFinder) ∧
  ∀ o ∈ offsetsOf ch.nodeFinder, o < ch.textLength

theorem chunkInv_new (text : List Char) (isRtl : Bool) (node : Nat)
    (isDeclared : Bool) (h : text ≠ []) :
    chunkInv (DirChunk.new text isRtl node isDeclared) := by
  refine ⟨rfl, by simp [DirChunk.new, finderNew, offsetsOf], ?_⟩
  intro o ho
  simp only [DirChunk.new, finderNew, offsetsOf, List.map_cons, List.map_nil,
    List.mem_singleton] at ho
  subst ho
  exact List.length_pos.mpr h

theorem chunkInv_append (ch : DirChunk) (text : List Char) (node : Nat)
    (hinv : chunkInv ch) (h : text ≠ []) :
    chunkInv (ch.append text node) := by
  obtain ⟨h0, hsort, hbound⟩ := hinv
  have hlen : 0 < text.length := List.length_pos.mpr h
  unfold DirChunk.append finderAppend
  split
  · refine ⟨?_, ?_, ?_⟩
    · simp only [offsetsOf, List.map_append] at h0 ⊢
      rw [List.head?_append_of_ne_nil]
      · exact h0
      · intro hnil
        rw [hnil] at h0
        simp at h0
    · simp only [offsetsOf, List.map_append, List.map_cons, List.map_nil]
      rw [List.pairwise_append]
      refine ⟨hsort, by simp, ?_⟩
      intro a ha b hb
      simp only [List.mem_singleton] at hb
      subst hb
      exact hbound a ha
    · intro o ho
      simp only [offsetsOf, List.map_append, List.map_cons, List.map_nil,
        List.mem_append, List.mem_singleton] at ho
      rcases ho with ho | rfl
      · have := hbound o ho
        show o < ch.textLength + text.length
        omega
      · show ch.textLength < ch.textLength + text.length
        omega
  · refine ⟨h0, hsort, ?_⟩
    intro o ho
    have := hbound o ho
    show o < ch.textLength + text.length
    omega

theorem chunkInv_foldl :
    ∀ (rest : List (List Char × Nat)) (ch : DirChunk),
      chunkInv ch → (∀ p ∈ rest, p.1 ≠ []) →
      chunkInv (rest.foldl (fun ch p => ch.append p.1 p.2) ch)
  | [], ch, hinv, _ => hinv
  | p :: rest, ch, hinv, hne => by
    rw [List.foldl_cons]
    exact chunkInv_foldl rest (ch.append p.1 p.2)
      (chunkInv_append ch p.1 p.2 hinv (hne p (by simp)))
      (fun x hx => hne x (by simp [hx]))

theorem chunkInv_build (isRtl isDeclared : Bool) (first : List Char × Nat)
    (rest : List (List Char × Nat)) (h1 : first.1 ≠ [])
    (h2 : ∀ p ∈ rest, p.1 ≠ []) :
    chunkInv (buildChunk isRtl isDeclared first rest) :=
  chunkInv_foldl rest _ (chunkInv_new first.1 isRtl first.2 isDeclared h1) h2

/-- `strictlyIncreasingB` is exactly pairwise strict increase. -/
theorem strictlyIncreasingB_iff :
    ∀ l : List Nat, strictlyIncreasingB l = true ↔ List.Chain' (· < ·) l
  | [] => by simp [strictlyIncreasingB]
  | [a] => by simp [strictlyIncreasingB]
  | a :: b :: t => by
    rw [strictlyIncreasingB]
    simp only [Bool.and_eq_true, decide_eq_true_eq, List.chain'_cons]
    exact and_congr_right fun _ => strictlyIncreasingB_iff (b :: t)

theorem findNodeIndexAtPosition_floor (f : CharPositionNodeFinder)
    (hsort : List.Pairwise (· < ·) (offsetsOf f)) (q : Nat) :
    findNodeIndexAtPosition f q =
      (((offsetsOf f).takeWhile fun o => decide (o ≤ q)).length : Int) - 1 := by
  have h := binarySearch_floor (offsetsOf f) hsort q
  unfold findNodeIndexAtPosition
  simpa [offsetsOf] using h

theorem findNodeIndexAtPosition_toNat (ch : DirChunk) (hinv : chunkInv ch)
    (q : Nat) :
    (findNodeIndexAtPosition ch.nodeFinder q).toNat =
      floorIndex ch.nodeFinder.nodePositions q := by
  obtain ⟨h0, hsort, _⟩ := hinv
  rw [findNodeIndexAtPosition_floor ch.nodeFinder hsort q]
  have hne : ((offsetsOf ch.nodeFinder).takeWhile fun o => decide (o ≤ q)) ≠ [] := by
    cases hoffs : offsetsOf ch.nodeFinder with
    | nil => rw [hoffs] at h0; simp at h0
    | cons a t =>
      rw [hoffs] at h0
      simp only [List.head?_cons, Option.some.injEq] at h0
      subst h0
      simp [List.takeWhile_cons]
  have hpos : 0 < ((offsetsOf ch.nodeFinder).takeWhile fun o => decide (o ≤ q)).length :=
    List.length_pos.mpr hne
  have hmap : (offsetsOf ch.nodeFinder).takeWhile (fun o => decide (o ≤ q)) =
      (ch.nodeFinder.nodePositions.takeWhile fun e => decide (e.charPos ≤ q)).map
        (fun e => e.charPos) := by
    rw [offsetsOf, List.takeWhile_map]
    rfl
  rw [floorIndex]
  rw [hmap] at hpos ⊢
  rw [List.length_map] at hpos ⊢
  omega

theorem findNodeAtPosition_floor (ch : DirChunk) (hinv : chunkInv ch) (q : Nat) :
    Option.map (fun e => e.node) (floorEntry ch.nodeFinder.nodePositions q) =
      some (ch.findNodeAtPosition q) := by
  have htn := findNodeIndexAtPosition_toNat ch hinv q
  obtain ⟨h0, hsort, hb⟩ := hinv
  have hne : (ch.nodeFinder.nodePositions.takeWhile fun e => decide (e.charPos ≤ q)) ≠ [] := by
    cases hps : ch.nodeFinder.nodePositions with
    | nil => rw [offsetsOf, hps] at h0; simp at h0
    | cons e0 ps2 =>
      rw [offsetsOf, hps] at h0
      simp only [List.map_cons, List.head?_cons, Option.some.injEq] at h0
      simp [List.takeWhile_cons, h0]
  have hlpos : 0 < (ch.nodeFinder.nodePositions.takeWhile fun e => decide (e.charPos ≤ q)).length :=
    List.length_pos.mpr hne
  have hpre : (ch.nodeFinder.nodePositions.takeWhile fun e => decide (e.charPos ≤ q)) <+:
      ch.nodeFinder.nodePositions := List.takeWhile_prefix _
  have hget : ∀ k, k < (ch.nodeFinder.nodePositions.takeWhile
        fun e => decide (e.charPos ≤ q)).length →
      (ch.nodeFinder.nodePositions.takeWhile fun e => decide (e.charPos ≤ q))[k]? =
        ch.nodeFinder.nodePositions[k]? := by
    obtain ⟨t, ht⟩ := hpre
    intro k hk
    conv_rhs => rw [← ht]
    rw [List.getElem?_append_left hk]
  rw [floorEntry, List.getLast?_eq_getElem?]
  unfold DirChunk.findNodeAtPosition
  unfold findNodeAtPosition
  rw [htn, floorIndex, ← hget _ (by omega)]
  cases hlast : (ch.nodeFinder.nodePositions.takeWhile fun e => decide (e.charPos ≤ q))[
      (ch.nodeFinder.nodePositions.takeWhile fun e => decide (e.charPos ≤ q)).length - 1]? with
  | none =>
    rw [List.getElem?_eq_getElem (by omega)] at hlast
    exact absurd hlast (by simp)
  | some e => simp

theorem getHighlightableArea_floor (ch : DirChunk) (hinv : chunkInv ch)
    (startPos length : Nat) :
    ch.getHighlightableArea startPos length =
      hlFromFloor ch.nodeFinder startPos length := by
  have h1 := findNodeIndexAtPosition_toNat ch hinv startPos
  have h2 := findNodeIndexAtPosition_toNat ch hinv (startPos + length - 1)
  unfold DirChunk.getHighlightableArea
  unfold getHighlightableArea hlFromFloor
  rw [h1, h2]

/-- C4 counterexample: a sealed, non-empty chunk assembled with an empty
text piece between two pieces from different nodes has equal adjacent
index offsets (not strictly increasing), and `findNodeAtPosition` at the
repeated offset returns the node of the first entry with that offset, not
the last entry with offset at most the query. -/
theorem C4_index_counterexample :
    (buildChunk false false (['a', 'b'], 1) [([], 2), (['c', 'd'], 3)]).isEmpty = false ∧
    offsetsOf (buildChunk false false (['a', 'b'], 1)
      [([], 2), (['c', 'd'], 3)]).nodeFinder = [0, 2, 2] ∧
    strictlyIncreasingB (offsetsOf (buildChunk false false (['a', 'b'], 1)
      [([], 2), (['c', 'd'], 3)]).nodeFinder) = false ∧
    2 < (buildChunk false false (['a', 'b'], 1) [([], 2), (['c', 'd'], 3)]).textLength ∧
    (buildChunk false false (['a', 'b'], 1) [([], 2), (['c', 'd'], 3)]).findNodeAtPosition 2 = 2 ∧
    Option.map (fun e => e.node)
      (floorEntry (buildChunk false false (['a', 'b'], 1)
        [([], 2), (['c', 'd'], 3)]).nodeFinder.nodePositions 2) = some 3 := by
  decide

/-- C4 (amended): for a chunk assembled from nonempty text pieces, the
index offsets are strictly increasing, `findNodeAtPosition` performs a
floor lookup (it returns the node of the last index entry whose offset is
at most the queried offset, for any offset below the chunk length), the
binary-search index is the floor index, and the highlightable area is
obtained by floor lookup at both ends of the substring.  The original
claim fails when an empty text piece is appended between two distinct
nodes: adjacent index entries then share an offset. -/
theorem C4_index_floor_amended (isRtl isDeclared : Bool)
    (first : List Char × Nat) (rest : List (List Char × Nat)) (ch : DirChunk)
    (hch : ch = buildChunk isRtl isDeclared first rest)
    (h1 : first.1 ≠ []) (h2 : ∀ p ∈ rest, p.1 ≠ []) :
    strictlyIncreasingB (offsetsOf ch.nodeFinder) = true ∧
    (∀ q : Nat, q < ch.textLength →
      Option.map (fun e => e.node) (floorEntry ch.nodeFinder.nodePositions q) =
        some (ch.findNodeAtPosition q)) ∧
    (∀ q : Nat, (findNodeIndexAtPosition ch.nodeFinder q).toNat =
      floorIndex ch.nodeFinder.nodePositions q) ∧
    (∀ startPos length : Nat,
      ch.getHighlightableArea startPos length =
        hlFromFloor ch.nodeFinder startPos length) := by
  have hinv : chunkInv ch := hch ▸ chunkInv_build isRtl isDeclared first rest h1 h2
  refine ⟨?_, ?_, ?_, ?_⟩
  · rw [strictlyIncreasingB_iff]
    exact List.Pairwise.chain' hinv.2.1
  · intro q _
    exact findNodeAtPosition_floor ch hinv q
  · intro q
    exact findNodeIndexAtPosition_toNat ch hinv q
  · intro startPos length
    exact getHighlightableArea_floor ch hinv startPos length

/-- Witness for C4's amended claim at a concrete two-piece chunk. -/
theorem C4_index_floor_amended_witness :
    strictlyIncreasingB (offsetsOf (buildChunk false false (['a'], 1)
      [(['b', 'c'], 2)]).nodeFinder) = true ∧
    Option.map (fun e => e.node)
      (floorEntry (buildChunk false false (['a'], 1)
        [(['b', 'c'], 2)]).nodeFinder.nodePositions 2) =
      some ((buildChunk false false (['a'], 1) [(['b', 'c'], 2)]).findNodeAtPosition 2) :=
  ⟨(C4_index_floor_amended false false (['a'], 1) [(['b', 'c'], 2)] _ rfl
      (by decide) (by decide)).1,
   (C4_index_floor_amended false false (['a'], 1) [(['b', 'c'], 2)] _ rfl
      (by decide) (by decide)).2.1 2 (by decide)⟩
